import Mathlib

/-!
# Portfolio page controller (`src/app.js`): model and verified properties

A shallow embedding of the page controller: JavaScript strings are sequences of
UTF-16 code units, DOM elements are records of the attributes the script reads
and writes, and every event handler is a function from page state to page state.
Timers are explicit: a pending timer is a piece of state, and its firing is an
event of its own.
-/

/-! ## JavaScript strings -/

/-- A JavaScript string: its sequence of UTF-16 code units, so that `length` is
`List.length`, as for `String.prototype.length`. -/
abbrev JSString := List Nat

/-- UTF-16 encoding of one Unicode scalar value. -/
def utf16 (c : Char) : List Nat :=
  if c.toNat < 65536 then [c.toNat]
  else [55296 + (c.toNat - 65536) / 1024, 56320 + (c.toNat - 65536) % 1024]

/-- The JavaScript string denoted by a string literal. -/
def js (s : String) : JSString := (s.toList.map utf16).flatten

/-- Code units that `String.prototype.trim` strips and that `\s` matches in a
regular expression: WhiteSpace (TAB, VT, FF, SP, NBSP, ZWNBSP and the other
space separators) and LineTerminator (LF, CR, LS, PS). -/
def isWhiteSpace (c : Nat) : Bool :=
  c == 9 || c == 10 || c == 11 || c == 12 || c == 13 || c == 32 || c == 160 ||
  c == 5760 || (8192 ≤ c && c ≤ 8202) || c == 8232 || c == 8233 || c == 8239 ||
  c == 8287 || c == 12288 || c == 65279

/-- The method `String.prototype.trimStart`. -/
def trimStart (s : JSString) : JSString := s.dropWhile isWhiteSpace

/-- The method `String.prototype.trimEnd`. -/
def trimEnd (s : JSString) : JSString := (s.reverse.dropWhile isWhiteSpace).reverse

/-- The method `String.prototype.trim`. -/
def trim (s : JSString) : JSString := trimEnd (trimStart s)

/-- The method `String.prototype.toUpperCase` on one code unit, modelled on the
ASCII letters (the field names of the form are ASCII); other code units are left
as they are. -/
def toUpperCaseUnit (c : Nat) : Nat :=
  if 97 ≤ c ∧ c ≤ 122 then c - 32 else c

/-- The expression `s.substring(0, e)`: a negative end counts as 0 and an end
past the string as its length. -/
def substring0 (s : JSString) (e : Int) : JSString := s.take e.toNat

/-- The expression `x || d` for an attribute or storage value `x`: `null` and the
empty string are falsy. -/
def orDefault (x : Option JSString) (d : JSString) : JSString :=
  match x with
  | some (c :: cs) => c :: cs
  | _ => d

/-! ## Class lists -/

/-- The `classList` of an element: its class tokens in order. -/
abbrev ClassList := List JSString

namespace ClassList

/-- The method `classList.contains(t)`. -/
def has (l : ClassList) (t : JSString) : Bool := decide (t ∈ l)

/-- The method `classList.add(t)`. -/
def add (t : JSString) (l : ClassList) : ClassList :=
  if t ∈ l then l else l ++ [t]

/-- The method `classList.remove(t)`. -/
def remove (t : JSString) (l : ClassList) : ClassList :=
  l.filter (fun x => decide (x ≠ t))

/-- The method `classList.toggle(t)`. -/
def toggle (t : JSString) (l : ClassList) : ClassList :=
  if t ∈ l then remove t l else l ++ [t]

end ClassList

/-! ## Regular expressions (the fragment the email pattern uses) -/

/-- Regular expressions over code units, with character classes as predicates. -/
inductive Regex where
  | empty : Regex
  | eps : Regex
  | cls (p : Nat → Bool) : Regex
  | alt (a b : Regex) : Regex
  | seq (a b : Regex) : Regex
  | star (a : Regex) : Regex

namespace Regex

/-- Whether the expression matches the empty string. -/
def nullable : Regex → Bool
  | empty => false
  | eps => true
  | cls _ => false
  | alt a b => nullable a || nullable b
  | seq a b => nullable a && nullable b
  | star _ => true

/-- Brzozowski derivative: what remains to be matched after reading `c`. -/
def deriv : Regex → Nat → Regex
  | empty, _ => empty
  | eps, _ => empty
  | cls p, c => if p c then eps else empty
  | alt a b, c => alt (deriv a c) (deriv b c)
  | seq a b, c => if nullable a then alt (seq (deriv a c) b) (deriv b c) else seq (deriv a c) b
  | star a, c => seq (deriv a c) (star a)

/-- Whether the whole string matches the expression. -/
def rmatch : Regex → List Nat → Bool
  | r, [] => nullable r
  | r, c :: cs => rmatch (deriv r c) cs

/-- The quantifier `+`. -/
def plus (r : Regex) : Regex := seq r (star r)

/-- A literal character. -/
def chr (c : Nat) : Regex := cls (fun x => x == c)

end Regex

/-- The class `[^\s@]`. -/
def notSpaceAt (c : Nat) : Bool := !(isWhiteSpace c || c == 64)

/-- The body of `/^[^\s@]+@[^\s@]+\.[^\s@]+$/`, between the anchors. -/
def emailRegex : Regex :=
  Regex.seq (Regex.plus (Regex.cls notSpaceAt))
    (Regex.seq (Regex.chr 64)
      (Regex.seq (Regex.plus (Regex.cls notSpaceAt))
        (Regex.seq (Regex.chr 46) (Regex.plus (Regex.cls notSpaceAt)))))

/-- The call `emailRegex.test(value)`: the pattern is anchored at both ends
(`^`, `$`, no flags), so the whole value has to match. -/
def emailRegexTest (value : JSString) : Bool := emailRegex.rmatch value

namespace Portfolio

/-! ## Theme toggle -/

/-- What the theme code reads and writes. -/
structure ThemeState where
  /-- The attribute `data-color-scheme` of the document element. -/
  colorScheme : Option JSString
  /-- The `localStorage` item `theme`. -/
  stored : Option JSString
  /-- The class list of `.theme-icon-light`, if the element exists. -/
  lightIcon : Option ClassList
  /-- The class list of `.theme-icon-dark`, if the element exists. -/
  darkIcon : Option ClassList

/-- The method `setTheme(theme)`. -/
def setTheme (theme : JSString) (s : ThemeState) : ThemeState :=
  let s1 : ThemeState := { s with colorScheme := some theme, stored := some theme }
  match s1.lightIcon, s1.darkIcon with
  | some l, some d =>
    if theme = js "dark" then
      { s1 with lightIcon := some (ClassList.add (js "hidden") l),
                darkIcon := some (ClassList.remove (js "hidden") d) }
    else
      { s1 with lightIcon := some (ClassList.remove (js "hidden") l),
                darkIcon := some (ClassList.add (js "hidden") d) }
  | _, _ => s1

/-- The startup part of `setupThemeToggle`, run when the toggle control exists. -/
def setupThemeToggle (s : ThemeState) : ThemeState :=
  setTheme (orDefault s.stored (js "light")) s

/-- The click handler of the theme toggle. -/
def themeToggleClick (s : ThemeState) : ThemeState :=
  let currentTheme := orDefault s.colorScheme (js "light")
  let newTheme := if currentTheme = js "light" then js "dark" else js "light"
  setTheme newTheme s

/-- The state after `n` clicks on the theme toggle. -/
def themeToggles : Nat → ThemeState → ThemeState
  | 0, s => s
  | n + 1, s => themeToggleClick (themeToggles n s)

/-! ## Mobile menu -/

/-- The two elements of the mobile menu, both present (`setupMobileMenu` binds
nothing otherwise). -/
structure MenuState where
  /-- The class list of `#mobileMenuToggle`. -/
  mobileMenuToggle : ClassList
  /-- The class list of `#navMenu`. -/
  navMenu : ClassList

/-- The click handler of the toggle button. -/
def menuToggleClick (m : MenuState) : MenuState :=
  { mobileMenuToggle := ClassList.toggle (js "active") m.mobileMenuToggle,
    navMenu := ClassList.toggle (js "active") m.navMenu }

/-- The two statements that force the menu closed: the body of the nav-link
click handler, and of the guarded branches of the other handlers. -/
def closeMenu (m : MenuState) : MenuState :=
  { mobileMenuToggle := ClassList.remove (js "active") m.mobileMenuToggle,
    navMenu := ClassList.remove (js "active") m.navMenu }

/-- The document click handler; the flags say whether the click target lies
inside the toggle button or inside the menu. -/
def documentClick (inToggle inMenu : Bool) (m : MenuState) : MenuState :=
  if !inToggle && !inMenu then closeMenu m else m

/-- The menu elements as the global handlers look them up: either may be absent. -/
structure MenuDoc where
  /-- The class list of `#mobileMenuToggle`, if the element exists. -/
  mobileMenuToggle : Option ClassList
  /-- The class list of `#navMenu`, if the element exists. -/
  navMenu : Option ClassList

/-- The `keydown` handler of `setupKeyboardNavigation`. -/
def keydown (key : JSString) (d : MenuDoc) : MenuDoc :=
  if key = js "Escape" then
    match d.mobileMenuToggle, d.navMenu with
    | some t, some n =>
      if ClassList.has n (js "active") then
        { mobileMenuToggle := some (ClassList.remove (js "active") t),
          navMenu := some (ClassList.remove (js "active") n) }
      else d
    | _, _ => d
  else d

/-- The body of the `resize` handler. -/
def resizeHandler (innerWidth : Nat) (d : MenuDoc) : MenuDoc :=
  match d.mobileMenuToggle, d.navMenu with
  | some t, some n =>
    if innerWidth > 768 then
      { mobileMenuToggle := some (ClassList.remove (js "active") t),
        navMenu := some (ClassList.remove (js "active") n) }
    else d
  | _, _ => d

/-- A menu with both elements present, seen as a document. -/
def MenuState.toDoc (m : MenuState) : MenuDoc :=
  { mobileMenuToggle := some m.mobileMenuToggle, navMenu := some m.navMenu }

/-! ## Active navigation -/

/-- A navigation link (`.nav-link`). -/
structure NavLink where
  /-- The attribute `href`. -/
  href : JSString
  /-- The class list of the link. -/
  classList : ClassList
  deriving DecidableEq

/-- An `IntersectionObserverEntry`, as far as the callback reads it. -/
structure ObserverEntry where
  /-- The property `isIntersecting`. -/
  isIntersecting : Bool
  /-- The attribute `id` of the target section. -/
  targetId : JSString

/-- The code points of a JavaScript string: a surrogate pair is one code point,
an unpaired surrogate reads as U+FFFD. The first argument is a high surrogate
that waits for its low surrogate. -/
def decodeUnits : Option Nat → JSString → List Nat
  | none, [] => []
  | some _, [] => [65533]
  | none, c :: rest =>
    if 55296 ≤ c ∧ c ≤ 56319 then decodeUnits (some c) rest
    else if 56320 ≤ c ∧ c ≤ 57343 then 65533 :: decodeUnits none rest
    else c :: decodeUnits none rest
  | some h, c :: rest =>
    if 56320 ≤ c ∧ c ≤ 57343 then
      (65536 + (h - 55296) * 1024 + (c - 56320)) :: decodeUnits none rest
    else if 55296 ≤ c ∧ c ≤ 56319 then 65533 :: decodeUnits (some c) rest
    else 65533 :: c :: decodeUnits none rest

/-- The preprocessing of the CSS input stream: CR LF, CR and FF become LF, NUL
becomes U+FFFD. The flag says that the code point before was a CR. -/
def normalizePoints : Bool → List Nat → List Nat
  | _, [] => []
  | afterCR, c :: rest =>
    if c = 13 then 10 :: normalizePoints true rest
    else if c = 10 then
      if afterCR then normalizePoints false rest else 10 :: normalizePoints false rest
    else if c = 12 then 10 :: normalizePoints false rest
    else if c = 0 then 65533 :: normalizePoints false rest
    else c :: normalizePoints false rest

/-- The selector text as the CSS tokenizer sees it. -/
def cssPreprocess (text : JSString) : List Nat :=
  normalizePoints false (decodeUnits none text)

/-- The UTF-16 code units of one code point. -/
def utf16Units (n : Nat) : List Nat :=
  if n < 65536 then [n]
  else [55296 + (n - 65536) / 1024, 56320 + (n - 65536) % 1024]

/-- A string value of the tokenizer as a JavaScript string. -/
def encodePoints (points : List Nat) : JSString := (points.map utf16Units).flatten

/-- Whether the code point is a hex digit. -/
def isHexDigit (c : Nat) : Bool :=
  (48 ≤ c && c ≤ 57) || (65 ≤ c && c ≤ 70) || (97 ≤ c && c ≤ 102)

/-- The value of a hex digit. -/
def hexValue (c : Nat) : Nat :=
  if c ≤ 57 then c - 48 else if c ≤ 70 then c - 55 else c - 87

/-- CSS whitespace: newline, tab and space. -/
def isCssSpace (c : Nat) : Bool := c == 10 || c == 9 || c == 32

/-- The code point a hex escape with the given number stands for: U+FFFD for
zero, for a surrogate and for a number above U+10FFFF. -/
def escapedPoint (v : Nat) : Nat :=
  if v = 0 ∨ (55296 ≤ v ∧ v ≤ 57343) ∨ 1114111 < v then 65533 else v

/-- Where the tokenizer stands inside a string: between escapes, right after a
backslash, or inside a hex escape of which it has read `count` digits with the
number `value`. -/
inductive StringState where
  | plain
  | escape
  | hex (count value : Nat)

/-- What the tokenizer makes of a string: a string token that its closing quote
ended, with the input after the quote; a string token that the end of the
input ended; or a bad string token, for a newline inside the string. The value
is in reverse order. -/
inductive StringToken where
  | closed (value rest : List Nat)
  | eof (value : List Nat)
  | bad
  deriving DecidableEq

/-- The tokenizer on a string opened by a double quote ("consume a string token"
and "consume an escaped code point" of CSS Syntax): the closing quote ends the
string, a newline makes it a bad string, a backslash before a newline is a line
continuation, a backslash before up to six hex digits and one optional
whitespace is the code point with that number, and a backslash before anything
else is that code point. -/
def consumeString : StringState → List Nat → List Nat → StringToken
  | .plain, acc, [] => .eof acc
  | .plain, acc, c :: rest =>
    if c = 34 then .closed acc rest
    else if c = 10 then .bad
    else if c = 92 then consumeString .escape acc rest
    else consumeString .plain (c :: acc) rest
  | .escape, acc, [] => .eof acc
  | .escape, acc, c :: rest =>
    if c = 10 then consumeString .plain acc rest
    else if isHexDigit c then consumeString (.hex 1 (hexValue c)) acc rest
    else consumeString .plain (c :: acc) rest
  | .hex _ v, acc, [] => .eof (escapedPoint v :: acc)
  | .hex n v, acc, c :: rest =>
    if n < 6 ∧ isHexDigit c = true then consumeString (.hex (n + 1) (16 * v + hexValue c)) acc rest
    else if isCssSpace c then consumeString .plain (escapedPoint v :: acc) rest
    else if c = 34 then .closed (escapedPoint v :: acc) rest
    else if c = 92 then consumeString .escape (escapedPoint v :: acc) rest
    else consumeString .plain (c :: escapedPoint v :: acc) rest

/-- What the selector text of the callback is to `querySelector`. -/
inductive NavSelector where
  /-- The selector `.nav-link[href="..."]` with this string as the value. -/
  | href (value : JSString)
  /-- Not a selector: `querySelector` throws a `SyntaxError`. -/
  | syntaxError
  /-- A text this model does not read: the string ends before the end of the id
  and what follows could go on as selector text, or the string runs to the end
  of the text. -/
  | beyond
  deriving DecidableEq

/-- The selector text `.nav-link[href="#${activeSection}"]`, in which the id
stands unescaped inside a CSS string. When the closing quote of the template is
the one that ends the string, the selector asks for the string value as `href`.
A newline in the string makes the text invalid. When a quote of the id ends the
string, the attribute selector can only go on with `]` or with the flag `i` or
`s` (after whitespace or a comment, or written with an escape): any other code
point there makes the text invalid. -/
def navSelector (activeSection : JSString) : NavSelector :=
  match consumeString .plain [] (cssPreprocess (js "#" ++ activeSection ++ js "\"]")) with
  | .bad => .syntaxError
  | .eof _ => .beyond
  | .closed value rest =>
    if rest = [93] then .href (encodePoints value.reverse)
    else
      match rest.dropWhile isCssSpace with
      | [] => .beyond
      | c :: _ =>
        if c = 93 ∨ c = 47 ∨ c = 92 ∨ c = 105 ∨ c = 73 ∨ c = 115 ∨ c = 83 then .beyond
        else .syntaxError

/-- The statement after `document.querySelector`, for a selector
`.nav-link[href="..."]` with the string value `target`: the first navigation
link with that `href`, if there is one, gets the class `active`. -/
def activateFirst (target : JSString) : List NavLink → List NavLink
  | [] => []
  | l :: ls =>
    if l.href = target then { l with classList := ClassList.add (js "active") l.classList } :: ls
    else l :: activateFirst target ls

/-- How a run of the callback ends: it ran to its end, or `querySelector` threw
and left the links as they were at that point, or the model does not read the
selector text. -/
inductive Outcome where
  | done (navLinks : List NavLink)
  | threw (navLinks : List NavLink)
  | beyond
  deriving DecidableEq

/-- The body of `entries.forEach` in `setupActiveNavigation`, for one entry. -/
def handleEntry (navLinks : List NavLink) (entry : ObserverEntry) : Outcome :=
  if entry.isIntersecting then
    let activeSection := entry.targetId
    let cleared := navLinks.map
      (fun link => { link with classList := ClassList.remove (js "active") link.classList })
    match navSelector activeSection with
    | .href value => .done (activateFirst value cleared)
    | .syntaxError => .threw cleared
    | .beyond => .beyond
  else .done navLinks

/-- The observer callback of `setupActiveNavigation` on a batch of entries: an
exception leaves `forEach`, so the entries after it are not processed. -/
def observerCallback : List NavLink → List ObserverEntry → Outcome
  | navLinks, [] => .done navLinks
  | navLinks, entry :: entries =>
    match handleEntry navLinks entry with
    | .done r => observerCallback r entries
    | .threw r => .threw r
    | .beyond => .beyond

/-- How many navigation links carry the class `active`. -/
def activeCount (navLinks : List NavLink) : Nat :=
  (navLinks.filter (fun l => ClassList.has l.classList (js "active"))).length

/-- A section id that reads as itself inside the CSS string of the selector: the
UTF-16 form of a string of characters, none of them NUL, line feed, form feed,
carriage return, double quote or backslash. -/
def PlainId (id : JSString) : Prop :=
  ∃ s : List Char, id = (s.map utf16).flatten ∧
    ∀ c ∈ s, c.toNat ≠ 0 ∧ c.toNat ≠ 10 ∧ c.toNat ≠ 12 ∧ c.toNat ≠ 13 ∧
      c.toNat ≠ 34 ∧ c.toNat ≠ 92

end Portfolio

namespace Portfolio

/-! ## Contact form -/

/-- The method `capitalizeFirst(str)`: `str.charAt(0).toUpperCase() + str.slice(1)`. -/
def capitalizeFirst (str : JSString) : JSString :=
  match str with
  | [] => []
  | c :: cs => toUpperCaseUnit c :: cs

/-- An input or textarea of the contact form. -/
structure Field where
  /-- The attribute `name`. -/
  name : JSString
  /-- The current value. -/
  value : JSString
  /-- The default value, which `form.reset()` restores. -/
  defaultValue : JSString
  /-- The class list of the control. -/
  classList : ClassList

/-- The error elements of the document: the `textContent` of the element with a
given id, or `none` when `getElementById` finds no such element. -/
abbrev Slots := JSString → Option JSString

/-- The assignment `errorElement.textContent = text` for the element with id `id`. -/
def setText (id text : JSString) (slots : Slots) : Slots :=
  fun k => if k = id then some text else slots k

/-- The part of `validateField` that sets `isValid` and `errorMessage` from the
field name and the trimmed value: the emptiness check, then the `switch` on the
field name, which has no default case. -/
def fieldCheck (fieldName value : JSString) : Bool × JSString :=
  if value = [] then
    (false, capitalizeFirst fieldName ++ js " is required.")
  else if fieldName = js "name" then
    if value.length < 2 then (false, js "Name must be at least 2 characters long.")
    else (true, js "")
  else if fieldName = js "email" then
    if !emailRegexTest value then (false, js "Please enter a valid email address.")
    else (true, js "")
  else if fieldName = js "message" then
    if value.length < 10 then (false, js "Message must be at least 10 characters long.")
    else (true, js "")
  else (true, js "")

/-- The method `validateField(field)`: the returned flag, the field and the error
elements afterwards. Without an error element for the field it returns `true`
at once. -/
def validateField (field : Field) (slots : Slots) : Bool × Field × Slots :=
  let fieldName := field.name
  let value := trim field.value
  match slots (fieldName ++ js "Error") with
  | none => (true, field, slots)
  | some _ =>
    let r := fieldCheck fieldName value
    if r.1 then
      (true,
        { field with classList :=
            ClassList.add (js "success") (ClassList.remove (js "error") field.classList) },
        setText (fieldName ++ js "Error") (js "") slots)
    else
      (false,
        { field with classList :=
            ClassList.add (js "error") (ClassList.remove (js "success") field.classList) },
        setText (fieldName ++ js "Error") r.2 slots)

/-- The method `clearFieldError(field)`. -/
def clearFieldError (field : Field) (slots : Slots) : Field × Slots :=
  match slots (field.name ++ js "Error") with
  | none => (field, slots)
  | some _ =>
    ({ field with classList := ClassList.remove (js "error") field.classList },
      setText (field.name ++ js "Error") (js "") slots)

/-- The three controls of the contact form, by their element ids. -/
inductive FieldId where
  | name
  | email
  | message
  deriving DecidableEq

/-- The element id of a control; the control carries the same string as its
`name` attribute (the form has the three named fields name, email, message). -/
def FieldId.toJS : FieldId → JSString
  | .name => js "name"
  | .email => js "email"
  | .message => js "message"

/-- The state of one control of the form. -/
structure Control where
  /-- The current value. -/
  value : JSString
  /-- The default value, which `form.reset()` restores. -/
  defaultValue : JSString
  /-- The class list of the control. -/
  classList : ClassList
  deriving DecidableEq

/-- The submit button of the form. -/
structure Button where
  /-- The label. -/
  textContent : JSString
  /-- The property `disabled`. -/
  disabled : Bool
  deriving DecidableEq

/-- The contact section of the page, with `#contactForm` and `#formSuccess`
present (`setupContactForm` binds nothing otherwise). -/
structure Page where
  /-- The control with id `name`. -/
  name : Control
  /-- The control with id `email`. -/
  email : Control
  /-- The control with id `message`. -/
  message : Control
  /-- The error elements, by id. -/
  slots : Slots
  /-- The style property `display` of the form. -/
  display : JSString
  /-- The class list of the success panel `#formSuccess`. -/
  formSuccess : ClassList
  /-- The element `button[type="submit"]` of the form, if there is one. -/
  submitButton : Option Button
  /-- The number of pending 1000ms timers set by `submitForm`. -/
  submitTimers : Nat
  /-- The number of pending 3000ms timers set when a submission timer fires. -/
  resetTimers : Nat

/-- The control with a given id. -/
def Page.control (p : Page) : FieldId → Control
  | .name => p.name
  | .email => p.email
  | .message => p.message

/-- The page with one control replaced. -/
def Page.setControl (p : Page) (k : FieldId) (c : Control) : Page :=
  match k with
  | .name => { p with name := c }
  | .email => { p with email := c }
  | .message => { p with message := c }

/-- The element `document.getElementById(k)` as a field. -/
def Page.field (p : Page) (k : FieldId) : Field :=
  { name := k.toJS, value := (p.control k).value,
    defaultValue := (p.control k).defaultValue, classList := (p.control k).classList }

/-- The page after a handler has left the field with id `k` as `f` and the error
elements as `slots`. -/
def Page.store (p : Page) (k : FieldId) (f : Field) (slots : Slots) : Page :=
  { p.setControl k { value := f.value, defaultValue := f.defaultValue, classList := f.classList }
    with slots := slots }

/-- The call `this.validateField(document.getElementById(k))` on the page. -/
def validateFieldOn (k : FieldId) (p : Page) : Bool × Page :=
  let r := validateField (p.field k) p.slots
  (r.1, p.store k r.2.1 r.2.2)

/-- The call `this.clearFieldError(input)` on the page. -/
def clearFieldErrorOn (k : FieldId) (p : Page) : Page :=
  let r := clearFieldError (p.field k) p.slots
  p.store k r.1 r.2

/-- One round of the loop of `clearAllErrors`, for the input with id `k`. -/
def clearErrorsOf (k : FieldId) (p : Page) : Page :=
  let input := p.field k
  let classList := ClassList.remove (js "success") (ClassList.remove (js "error") input.classList)
  let slots :=
    match p.slots (input.name ++ js "Error") with
    | none => p.slots
    | some _ => setText (input.name ++ js "Error") (js "") p.slots
  p.store k { input with classList := classList } slots

/-- The method `clearAllErrors()`: the inputs of the form in document order. -/
def clearAllErrors (p : Page) : Page :=
  clearErrorsOf .message (clearErrorsOf .email (clearErrorsOf .name p))

/-- The method `validateForm()`. -/
def validateForm (p : Page) : Bool × Page :=
  let isValid := true
  let r1 := validateFieldOn .name p
  let isValid := if !r1.1 then false else isValid
  let r2 := validateFieldOn .email r1.2
  let isValid := if !r2.1 then false else isValid
  let r3 := validateFieldOn .message r2.2
  let isValid := if !r3.1 then false else isValid
  (isValid, r3.2)

/-- The method `submitForm()`, up to the point where it sets the 1000ms timer.
The label read into `originalButtonText` is not used again. -/
def submitForm (p : Page) : Page :=
  match p.submitButton with
  | none => p
  | some _ =>
    { p with submitButton := some { textContent := js "Sending...", disabled := true },
             submitTimers := p.submitTimers + 1 }

/-- The method `resetForm()`. -/
def resetForm (p : Page) : Page :=
  match p.submitButton with
  | none => p
  | some _ =>
    let reset (c : Control) : Control :=
      { value := c.defaultValue, defaultValue := c.defaultValue,
        classList := ClassList.remove (js "error") (ClassList.remove (js "success") c.classList) }
    clearAllErrors
      { p with name := reset p.name, email := reset p.email, message := reset p.message,
               display := js "block",
               formSuccess := ClassList.add (js "hidden") p.formSuccess,
               submitButton := some { textContent := js "Send Message", disabled := false } }

/-- The body of `setupContactForm` before the listeners are bound. -/
def setupContactForm (p : Page) : Page :=
  { p with display := js "block", formSuccess := ClassList.add (js "hidden") p.formSuccess }

/-- The `submit` handler of the form. -/
def onSubmit (p : Page) : Page :=
  let p1 := clearAllErrors p
  let r := validateForm p1
  if r.1 then submitForm r.2 else r.2

/-- The callback of the 1000ms timer of `submitForm`. -/
def submitTimerCallback (p : Page) : Page :=
  { p with display := js "none",
           formSuccess := ClassList.remove (js "hidden") p.formSuccess,
           resetTimers := p.resetTimers + 1 }

/-- What can happen to the contact form once the listeners are bound. -/
inductive FormEvent where
  /-- The user changes the value of a control; the `input` listener runs. -/
  | input (k : FieldId) (value : JSString)
  /-- A control loses focus. -/
  | blur (k : FieldId)
  /-- A submit attempt. -/
  | submit
  /-- A pending 1000ms submission timer fires. -/
  | submitTimer
  /-- A pending 3000ms reset timer fires. -/
  | resetTimer

/-- One event on the contact form; `none` when the event cannot happen (a timer
fires only while it is pending). A handler runs to its end before the next
event is taken, so the states between events are the ones the page shows. -/
def formStep (p : Page) : FormEvent → Option Page
  | .input k v =>
    some (clearFieldErrorOn k (p.setControl k { p.control k with value := v }))
  | .blur k => some (validateFieldOn k p).2
  | .submit => some (onSubmit p)
  | .submitTimer =>
    if p.submitTimers = 0 then none
    else some (submitTimerCallback { p with submitTimers := p.submitTimers - 1 })
  | .resetTimer =>
    if p.resetTimers = 0 then none
    else some (resetForm { p with resetTimers := p.resetTimers - 1 })

/-- A sequence of events on the contact form, from left to right. -/
def formRun (p : Page) : List FormEvent → Option Page
  | [] => some p
  | e :: es =>
    match formStep p e with
    | none => none
    | some q => formRun q es

/-- The form is displayed. -/
def Page.formVisible (p : Page) : Prop := p.display ≠ js "none"

/-- The success panel is displayed. -/
def Page.successVisible (p : Page) : Prop := js "hidden" ∉ p.formSuccess

instance (p : Page) : Decidable p.formVisible :=
  inferInstanceAs (Decidable (p.display ≠ js "none"))

instance (p : Page) : Decidable p.successVisible :=
  inferInstanceAs (Decidable (js "hidden" ∉ p.formSuccess))

end Portfolio

/-! ## The shape of an email address, in the words of the specification -/

/-- The shape `local@domain.tld`: no whitespace, exactly one `@`, something before
the `@`, and after it a `.` with something before it and something after it. -/
def EmailShape (t : JSString) : Prop :=
  (∀ c ∈ t, isWhiteSpace c = false) ∧ t.count 64 = 1 ∧
    ∃ loc dom, t = loc ++ 64 :: dom ∧ loc ≠ [] ∧
      ∃ a b, dom = a ++ 46 :: b ∧ a ≠ [] ∧ b ≠ []

namespace Portfolio

/-- A document with the three error elements of the form, all empty. -/
def threeSlots : Slots :=
  fun k =>
    if k = js "nameError" ∨ k = js "emailError" ∨ k = js "messageError" then some (js "")
    else none

/-- A document without any error element. -/
def noSlots : Slots := fun _ => none

/-- A document with the error elements of the name and message fields, both
empty, and none for the email field. -/
def twoSlots : Slots :=
  fun k => if k = js "nameError" ∨ k = js "messageError" then some (js "") else none

/-- A page as the markup would give it: the three controls with the given values
and empty defaults, the form displayed, the success panel without the class
`hidden`, a submit button with the given label, and no timer pending. -/
def samplePage (name email message : JSString) (slots : Slots) (label : JSString) : Page :=
  { name := ⟨name, js "", [js "form-control"]⟩,
    email := ⟨email, js "", [js "form-control"]⟩,
    message := ⟨message, js "", [js "form-control"]⟩,
    slots := slots,
    display := js "",
    formSuccess := [js "form-success"],
    submitButton := some ⟨label, false⟩,
    submitTimers := 0,
    resetTimers := 0 }

end Portfolio

namespace Portfolio

/-- The rule of the specification for the trimmed value of each field: a name of
at least 2 characters, an email address of the shape `local@domain.tld`, a
message of at least 10 characters. -/
def FieldRule : FieldId → JSString → Prop
  | .name, t => 2 ≤ t.length
  | .email, t => EmailShape t
  | .message, t => 10 ≤ t.length

/-- The error text of the specification for a trimmed value that breaks the rule
of its field. -/
def ruleErrorText : FieldId → JSString → JSString
  | .name, t =>
    if t = [] then js "Name is required." else js "Name must be at least 2 characters long."
  | .email, t =>
    if t = [] then js "Email is required." else js "Please enter a valid email address."
  | .message, t =>
    if t = [] then js "Message is required."
    else js "Message must be at least 10 characters long."

/-- The class list `validateField` leaves on a field, by the outcome of the check. -/
def markedClasses (ok : Bool) (classList : ClassList) : ClassList :=
  if ok then ClassList.add (js "success") (ClassList.remove (js "error") classList)
  else ClassList.add (js "error") (ClassList.remove (js "success") classList)

end Portfolio

namespace Portfolio

/-! ## Debounce -/

/-- A pending timer set by the debounced function: its id, the time at which it
is due, and the arguments its callback `later` holds. -/
structure Timer (α : Type) where
  /-- The id `setTimeout` returned. -/
  id : Nat
  /-- The time at which the timer fires. -/
  due : Nat
  /-- The arguments of the call that set the timer. -/
  args : α

/-- The state around one function returned by `debounce(func, wait)`, on a
virtual clock in milliseconds. -/
structure Debounced (α : Type) where
  /-- The parameter `wait`. -/
  wait : Nat
  /-- The variable `timeout` of the closure; `none` is `undefined`. -/
  timeout : Option Nat
  /-- The id the next `setTimeout` returns. -/
  nextId : Nat
  /-- The current time. -/
  now : Nat
  /-- The timers that are set and have neither fired nor been cleared. -/
  pending : List (Timer α)
  /-- The invocations of `func` so far: time and arguments, oldest first. -/
  calls : List (Nat × α)

namespace Debounced

variable {α : Type}

/-- The state right after `debounce(func, wait)` returns, at time `now`. -/
def init (wait now : Nat) : Debounced α :=
  { wait := wait, timeout := none, nextId := 1, now := now, pending := [], calls := [] }

/-- The call `clearTimeout(id)`; an id that names no pending timer does nothing. -/
def clearTimeout (id : Option Nat) (s : Debounced α) : Debounced α :=
  match id with
  | none => s
  | some i => { s with pending := s.pending.filter (fun t => decide (t.id ≠ i)) }

/-- The function `executedFunction(...args)` that `debounce` returns. -/
def executedFunction (args : α) (s : Debounced α) : Debounced α :=
  let s1 := clearTimeout s.timeout s
  { s1 with timeout := some s1.nextId,
            nextId := s1.nextId + 1,
            pending := s1.pending ++ [{ id := s1.nextId, due := s1.now + s1.wait, args := args }] }

/-- The callback `later` of the timer `t`. -/
def later (t : Timer α) (s : Debounced α) : Debounced α :=
  let s1 := clearTimeout s.timeout s
  { s1 with calls := s1.calls ++ [(s1.now, t.args)] }

/-- The timer `t` fires: the clock stands at its due time, the timer is no longer
pending, and its callback runs. -/
def fire (t : Timer α) (s : Debounced α) : Debounced α :=
  later t { s with now := max s.now t.due,
                   pending := s.pending.filter (fun u => decide (u.id ≠ t.id)) }

/-- The pending timer that fires first: the least due time, the earliest set
among equals. -/
def earliest : List (Timer α) → Option (Timer α)
  | [] => none
  | t :: ts =>
    match earliest ts with
    | none => some t
    | some u => if u.due < t.due then some u else some t

/-- The clock runs to time `until`, firing due timers in order; `fuel` bounds the
number of firings. -/
def advanceAux : Nat → Nat → Debounced α → Debounced α
  | 0, untilT, s => { s with now := max s.now untilT }
  | fuel + 1, untilT, s =>
    match earliest s.pending with
    | none => { s with now := max s.now untilT }
    | some t =>
      if t.due ≤ untilT then advanceAux fuel untilT (fire t s)
      else { s with now := max s.now untilT }

/-- The clock runs to time `until`. A callback sets no timer, so each firing
leaves one timer fewer and the number of pending timers is fuel enough. -/
def advance (untilT : Nat) (s : Debounced α) : Debounced α :=
  advanceAux s.pending.length untilT s

/-- A call of the debounced function at time `s.now + gap`. -/
def callAfter (gap : Nat) (args : α) (s : Debounced α) : Debounced α :=
  executedFunction args (advance (s.now + gap) s)

/-- A run of calls, each given with the time since the one before (the first,
since the start): the states right after each call, in order. -/
def burst (s : Debounced α) : List (Nat × α) → List (Debounced α)
  | [] => []
  | (gap, args) :: rest => callAfter gap args s :: burst (callAfter gap args s) rest

/-- The state after a run of calls. -/
def afterBurst (s : Debounced α) : List (Nat × α) → Debounced α
  | [] => s
  | (gap, args) :: rest => afterBurst (callAfter gap args s) rest

/-- The state right after a call with arguments `a` in a quiet run: one timer is
pending, due `wait` after now, holding `a`; the closure variable names it; and
`func` has not run. -/
def Armed (s : Debounced α) (a : α) : Prop :=
  ∃ i, s.pending = [{ id := i, due := s.now + s.wait, args := a }] ∧
    s.timeout = some i ∧ s.calls = []

/-- The arguments of the last call of a run that starts with arguments `a`. -/
def lastArgs (a : α) : List (Nat × α) → α
  | [] => a
  | (_, b) :: rest => lastArgs b rest

end Debounced

end Portfolio

/-! ## Typing effect -/

/-- The fields of a `TypingEffect` object whose constructor did not return early,
with the text of its element and the delay of the timer it has set. -/
structure TypingEffect where
  /-- The `textContent` of the element. -/
  textContent : JSString
  /-- The phrases. -/
  texts : List JSString
  /-- The parameter `typeSpeed`. -/
  typeSpeed : Nat
  /-- The parameter `deleteSpeed`. -/
  deleteSpeed : Nat
  /-- The parameter `delayBetweenTexts`. -/
  delayBetweenTexts : Nat
  /-- The index of the current phrase. -/
  textIndex : Nat
  /-- The character offset. -/
  charIndex : Int
  /-- The direction flag. -/
  isDeleting : Bool
  /-- The delay of the pending timer that calls `type()` next, if one is set. -/
  timer : Option Nat
  deriving DecidableEq

namespace TypingEffect

/-- The method `type()`; `none` when `this.texts[this.textIndex]` is `undefined`
and the call throws. -/
def type (t : TypingEffect) : Option TypingEffect :=
  match t.texts[t.textIndex]? with
  | none => none
  | some currentText =>
    let t1 : TypingEffect :=
      if t.isDeleting then
        { t with textContent := substring0 currentText (t.charIndex - 1),
                 charIndex := t.charIndex - 1 }
      else
        { t with textContent := substring0 currentText (t.charIndex + 1),
                 charIndex := t.charIndex + 1 }
    let typeSpeed := if t1.isDeleting then t1.deleteSpeed else t1.typeSpeed
    if !t1.isDeleting && t1.charIndex = (currentText.length : Int) then
      some { t1 with isDeleting := true, timer := some t1.delayBetweenTexts }
    else if t1.isDeleting && t1.charIndex = 0 then
      some { t1 with isDeleting := false,
                     textIndex := (t1.textIndex + 1) % t1.texts.length,
                     timer := some 500 }
    else
      some { t1 with timer := some typeSpeed }

/-- The constructor, for an element that exists: `none` when the phrase list is
empty and the effect is off, else the object after the first `type()` call. -/
def create (textContent : JSString) (texts : List JSString)
    (typeSpeed deleteSpeed delayBetweenTexts : Nat) : Option TypingEffect :=
  if texts.length = 0 then none
  else
    type { textContent := textContent, texts := texts, typeSpeed := typeSpeed,
           deleteSpeed := deleteSpeed, delayBetweenTexts := delayBetweenTexts,
           textIndex := 0, charIndex := 0, isDeleting := false, timer := none }

/-- The constructor with the default speeds 100, 50 and 2000. -/
def createDefault (textContent : JSString) (texts : List JSString) : Option TypingEffect :=
  create textContent texts 100 50 2000

/-- The object after `n` further firings of its timer. -/
def ticks : Nat → TypingEffect → Option TypingEffect
  | 0, t => some t
  | n + 1, t =>
    match type t with
    | none => none
    | some u => ticks n u

/-- The object for the phrases "A", "BB" and the default speeds once the
constructor's call of `type()` has written "A" and switched to deleting. -/
def firstA_BB : TypingEffect :=
  { textContent := js "A", texts := [js "A", js "BB"], typeSpeed := 100,
    deleteSpeed := 50, delayBetweenTexts := 2000, textIndex := 0,
    charIndex := 1, isDeleting := true, timer := some 2000 }

/-- The text on screen after the `n`-th call of `type()`, counting from 0 for the
call the constructor makes. -/
def rendered (texts : List JSString) (n : Nat) : Option JSString :=
  match createDefault (js "") texts with
  | none => none
  | some t => (ticks n t).map (fun u => u.textContent)

/-- What the typing loop relies on before a call of `type()`: no phrase is empty,
the phrase index names a phrase, and the offset is at least 1 and at most the
length of the phrase while deleting, at least 0 and below the length while
typing. -/
def Ready (t : TypingEffect) : Prop :=
  (∀ p ∈ t.texts, p ≠ []) ∧
    ∃ cur, t.texts[t.textIndex]? = some cur ∧
      if t.isDeleting then 1 ≤ t.charIndex ∧ t.charIndex ≤ (cur.length : Int)
      else 0 ≤ t.charIndex ∧ t.charIndex < (cur.length : Int)

/-- The bounds on a state of the typing loop: the phrase index is below the number
of phrases, the offset lies between 0 and the length of the current phrase, and
the text on screen is the part of the current phrase before the offset. -/
def Bounded (t : TypingEffect) : Prop :=
  t.textIndex < t.texts.length ∧
    ∃ cur, t.texts[t.textIndex]? = some cur ∧
      0 ≤ t.charIndex ∧ t.charIndex ≤ (cur.length : Int) ∧
      t.textContent = cur.take t.charIndex.toNat


end TypingEffect

/-! ## Class lists: basic facts -/

theorem ClassList.not_mem_remove (t : JSString) (l : ClassList) :
    t ∉ ClassList.remove t l := by
  simp [ClassList.remove]

theorem ClassList.remove_of_not_mem (t : JSString) (l : ClassList) (h : t ∉ l) :
    ClassList.remove t l = l := by
  unfold ClassList.remove
  rw [List.filter_eq_self]
  intro x hx
  have : x ≠ t := fun e => h (e ▸ hx)
  simpa using this

theorem ClassList.remove_remove (t : JSString) (l : ClassList) :
    ClassList.remove t (ClassList.remove t l) = ClassList.remove t l :=
  ClassList.remove_of_not_mem t _ (ClassList.not_mem_remove t l)

theorem ClassList.mem_remove_iff (t u : JSString) (l : ClassList) :
    u ∈ ClassList.remove t l ↔ u ∈ l ∧ u ≠ t := by
  simp [ClassList.remove]

theorem ClassList.mem_add_iff (t u : JSString) (l : ClassList) :
    u ∈ ClassList.add t l ↔ u ∈ l ∨ u = t := by
  unfold ClassList.add
  split
  · constructor
    · intro h; exact Or.inl h
    · rintro (h | h)
      · exact h
      · subst h; assumption
  · simp

theorem ClassList.mem_add_self (t : JSString) (l : ClassList) : t ∈ ClassList.add t l :=
  (ClassList.mem_add_iff t t l).2 (Or.inr rfl)

namespace Portfolio

/-! ## Theme toggle -/

theorem setTheme_colorScheme (theme : JSString) (s : ThemeState) :
    (setTheme theme s).colorScheme = some theme := by
  unfold setTheme
  dsimp only
  split
  · split <;> rfl
  · rfl

theorem setTheme_stored (theme : JSString) (s : ThemeState) :
    (setTheme theme s).stored = some theme := by
  unfold setTheme
  dsimp only
  split
  · split <;> rfl
  · rfl

theorem themeToggleClick_stored (s : ThemeState) :
    (themeToggleClick s).stored = (themeToggleClick s).colorScheme := by
  unfold themeToggleClick
  simp only [setTheme_colorScheme, setTheme_stored]

theorem themeToggleClick_of_light (s : ThemeState) (h : s.colorScheme = some (js "light")) :
    (themeToggleClick s).colorScheme = some (js "dark") := by
  unfold themeToggleClick
  simp only [setTheme_colorScheme, h]
  rfl

theorem themeToggleClick_of_dark (s : ThemeState) (h : s.colorScheme = some (js "dark")) :
    (themeToggleClick s).colorScheme = some (js "light") := by
  unfold themeToggleClick
  simp only [setTheme_colorScheme, h]
  rfl

theorem themeToggles_parity (s : ThemeState) (h : s.colorScheme = some (js "light")) (n : Nat) :
    (themeToggles n s).colorScheme = some (if n % 2 = 0 then js "light" else js "dark") := by
  induction n with
  | zero => simpa [themeToggles] using h
  | succ k ih =>
    rcases Nat.mod_two_eq_zero_or_one k with hk | hk
    · have h1 : (k + 1) % 2 = 1 := by omega
      rw [if_pos hk] at ih
      rw [if_neg (by omega)]
      exact themeToggleClick_of_light _ ih
    · have h1 : (k + 1) % 2 = 0 := by omega
      rw [if_neg (by omega)] at ih
      rw [if_pos h1]
      exact themeToggleClick_of_dark _ ih

/-- C4: starting from the applied theme "light", after `n` toggle actions the
applied theme (the attribute `data-color-scheme`) is "light" when `n` is even and
"dark" when `n` is odd, and after each toggle the value stored under the key
`theme` equals the applied theme. -/
theorem theme_toggle_parity (s : ThemeState) (h : s.colorScheme = some (js "light"))
    (n : Nat) :
    (themeToggles n s).colorScheme = some (if n % 2 = 0 then js "light" else js "dark") ∧
    (themeToggles (n + 1) s).stored = (themeToggles (n + 1) s).colorScheme :=
  ⟨themeToggles_parity s h n, themeToggleClick_stored _⟩

/-- Witness for C4: three toggles from a light page with a stale stored value. -/
theorem theme_toggle_parity_witness :
    (themeToggles 3 ⟨some (js "light"), none, some [], some [js "hidden"]⟩).colorScheme
        = some (js "dark") ∧
    (themeToggles 4 ⟨some (js "light"), none, some [], some [js "hidden"]⟩).stored
        = (themeToggles 4 ⟨some (js "light"), none, some [], some [js "hidden"]⟩).colorScheme :=
  theme_toggle_parity ⟨some (js "light"), none, some [], some [js "hidden"]⟩ rfl 3

/-! ## Mobile menu -/

theorem closeMenu_closeMenu (m : MenuState) : closeMenu (closeMenu m) = closeMenu m := by
  simp [closeMenu, ClassList.remove_remove]

theorem closeMenu_of_closed (m : MenuState) (h1 : js "active" ∉ m.mobileMenuToggle)
    (h2 : js "active" ∉ m.navMenu) : closeMenu m = m := by
  cases m
  simp only [closeMenu] at *
  rw [ClassList.remove_of_not_mem _ _ h1, ClassList.remove_of_not_mem _ _ h2]

theorem keydown_of_not_active (key : JSString) (d : MenuDoc)
    (h : ∀ n, d.navMenu = some n → js "active" ∉ n) : keydown key d = d := by
  unfold keydown
  split
  · split
    · rename_i t n ht hn
      have := h n hn
      simp [ClassList.has, this]
    · rfl
  · rfl

/-- C8: forcing the menu closed is idempotent. After it the flag `active` is on
neither the toggle button nor the menu; doing it twice is doing it once; on a
state where the flag is on neither element it changes nothing. It is what the
nav-link click does, what a click outside both elements does, what Escape does
on an active menu and what a resize above 768 pixels does. The Escape handler
changes nothing when the menu is not active, and no other key changes anything. -/
theorem closeMenu_idempotent (m : MenuState) :
    (js "active" ∉ (closeMenu m).mobileMenuToggle ∧ js "active" ∉ (closeMenu m).navMenu) ∧
    closeMenu (closeMenu m) = closeMenu m ∧
    (js "active" ∉ m.mobileMenuToggle → js "active" ∉ m.navMenu → closeMenu m = m) ∧
    documentClick false false m = closeMenu m ∧
    (js "active" ∈ m.navMenu → keydown (js "Escape") m.toDoc = (closeMenu m).toDoc) ∧
    (∀ w, 768 < w → resizeHandler w m.toDoc = (closeMenu m).toDoc) ∧
    (∀ key (d : MenuDoc), (∀ n, d.navMenu = some n → js "active" ∉ n) → keydown key d = d) ∧
    (∀ key (d : MenuDoc), key ≠ js "Escape" → keydown key d = d) := by
  refine ⟨⟨ClassList.not_mem_remove _ _, ClassList.not_mem_remove _ _⟩, closeMenu_closeMenu m,
    closeMenu_of_closed m, rfl, ?_, ?_, keydown_of_not_active, ?_⟩
  · intro h
    simp [keydown, MenuState.toDoc, ClassList.has, h, closeMenu]
  · intro w hw
    simp [resizeHandler, MenuState.toDoc, hw, closeMenu]
  · intro key d hk
    simp [keydown, hk]

/-- Witness for C8: a closed menu stays as it is, an open one is closed by
Escape, and Escape leaves a menu alone whose button alone carries the flag. -/
theorem closeMenu_idempotent_witness :
    closeMenu ⟨[js "btn"], [js "nav-menu"]⟩ = ⟨[js "btn"], [js "nav-menu"]⟩ ∧
    keydown (js "Escape") (MenuState.toDoc ⟨[js "btn", js "active"], [js "active"]⟩)
      = (closeMenu ⟨[js "btn", js "active"], [js "active"]⟩).toDoc ∧
    resizeHandler 1024 (MenuState.toDoc ⟨[js "btn", js "active"], [js "active"]⟩)
      = (closeMenu ⟨[js "btn", js "active"], [js "active"]⟩).toDoc ∧
    keydown (js "Escape") ⟨some [js "active"], some [js "nav-menu"]⟩
      = ⟨some [js "active"], some [js "nav-menu"]⟩ ∧
    keydown (js "Enter") ⟨some [js "active"], some [js "active"]⟩
      = ⟨some [js "active"], some [js "active"]⟩ :=
  ⟨(closeMenu_idempotent ⟨[js "btn"], [js "nav-menu"]⟩).2.2.1 (by decide) (by decide),
   (closeMenu_idempotent ⟨[js "btn", js "active"], [js "active"]⟩).2.2.2.2.1 (by decide),
   (closeMenu_idempotent ⟨[js "btn", js "active"], [js "active"]⟩).2.2.2.2.2.1 1024 (by decide),
   (closeMenu_idempotent ⟨[], []⟩).2.2.2.2.2.2.1 (js "Escape")
      ⟨some [js "active"], some [js "nav-menu"]⟩
      (by intro n hn; cases hn; decide),
   (closeMenu_idempotent ⟨[], []⟩).2.2.2.2.2.2.2 (js "Enter")
      ⟨some [js "active"], some [js "active"]⟩ (by decide)⟩

end Portfolio

/-! ## Regular expressions: what the matcher accepts -/

namespace Regex

theorem rmatch_empty (x : List Nat) : rmatch empty x = false := by
  induction x with
  | nil => rfl
  | cons c cs ih => simpa [rmatch, deriv] using ih

theorem rmatch_eps (x : List Nat) : rmatch eps x = true ↔ x = [] := by
  cases x with
  | nil => simp [rmatch, nullable]
  | cons c cs => simp [rmatch, deriv, rmatch_empty]

theorem rmatch_cls (p : Nat → Bool) (x : List Nat) :
    rmatch (cls p) x = true ↔ ∃ c, x = [c] ∧ p c = true := by
  cases x with
  | nil => simp [rmatch, nullable]
  | cons c cs =>
    by_cases h : p c = true
    · simp only [rmatch, deriv, h, if_true, rmatch_eps]
      constructor
      · rintro rfl
        exact ⟨c, rfl, h⟩
      · rintro ⟨d, hd, -⟩
        simp only [List.cons.injEq] at hd
        exact hd.2
    · simp only [rmatch, deriv, h, rmatch_empty]
      constructor
      · intro hf
        simp [rmatch_empty] at hf
      · rintro ⟨d, hd, hp⟩
        simp only [List.cons.injEq] at hd
        rw [← hd.1] at hp
        exact absurd hp h

theorem rmatch_alt (a b : Regex) (x : List Nat) :
    rmatch (alt a b) x = true ↔ rmatch a x = true ∨ rmatch b x = true := by
  induction x generalizing a b with
  | nil => simp [rmatch, nullable]
  | cons c cs ih => simp only [rmatch, deriv]; exact ih _ _

theorem rmatch_seq (a b : Regex) (x : List Nat) :
    rmatch (seq a b) x = true ↔
      ∃ u v, x = u ++ v ∧ rmatch a u = true ∧ rmatch b v = true := by
  induction x generalizing a with
  | nil =>
    simp only [rmatch, nullable, Bool.and_eq_true]
    constructor
    · rintro ⟨ha, hb⟩
      exact ⟨[], [], rfl, ha, hb⟩
    · rintro ⟨u, v, huv, ha, hb⟩
      have hu : u = [] := by
        cases u with
        | nil => rfl
        | cons _ _ => simp at huv
      have hv : v = [] := by
        cases v with
        | nil => rfl
        | cons _ _ => simp [hu] at huv
      subst hu hv
      exact ⟨ha, hb⟩
  | cons c cs ih =>
    have split_cons : (∃ u v, c :: cs = u ++ v ∧ rmatch a u = true ∧ rmatch b v = true) ↔
        (nullable a = true ∧ rmatch (deriv b c) cs = true) ∨
        (∃ u v, cs = u ++ v ∧ rmatch (deriv a c) u = true ∧ rmatch b v = true) := by
      constructor
      · rintro ⟨u, v, huv, ha, hb⟩
        cases u with
        | nil =>
          left
          simp only [List.nil_append] at huv
          subst huv
          exact ⟨ha, hb⟩
        | cons d u =>
          right
          simp only [List.cons_append, List.cons.injEq] at huv
          obtain ⟨rfl, rfl⟩ := huv
          exact ⟨u, v, rfl, ha, hb⟩
      · rintro (⟨ha, hb⟩ | ⟨u, v, rfl, ha, hb⟩)
        · exact ⟨[], c :: cs, rfl, ha, hb⟩
        · exact ⟨c :: u, v, rfl, ha, hb⟩
    rw [split_cons]
    simp only [rmatch, deriv]
    by_cases hn : nullable a = true
    · rw [if_pos hn, rmatch_alt, ih]
      simp only [hn, true_and]
      exact Or.comm
    · rw [if_neg hn, ih]
      simp [hn]

theorem rmatch_star_cls (p : Nat → Bool) (x : List Nat) :
    rmatch (star (cls p)) x = true ↔ ∀ c ∈ x, p c = true := by
  induction x with
  | nil => simp [rmatch, nullable]
  | cons c cs ih =>
    simp only [rmatch, deriv]
    by_cases h : p c = true
    · rw [if_pos h, rmatch_seq]
      constructor
      · rintro ⟨u, v, rfl, hu, hv⟩
        rw [rmatch_eps] at hu
        subst hu
        intro d hd
        rcases List.mem_cons.1 hd with rfl | hd
        · exact h
        · exact ih.1 hv d hd
      · intro hall
        exact ⟨[], cs, rfl, rfl, ih.2 (fun d hd => hall d (List.mem_cons_of_mem _ hd))⟩
    · rw [if_neg h, rmatch_seq]
      constructor
      · rintro ⟨u, v, -, hu, -⟩
        rw [rmatch_empty] at hu
        cases hu
      · intro hall
        exact absurd (hall c (List.mem_cons_self _ _)) h

theorem rmatch_plus_cls (p : Nat → Bool) (x : List Nat) :
    rmatch (plus (cls p)) x = true ↔ x ≠ [] ∧ ∀ c ∈ x, p c = true := by
  unfold plus
  rw [rmatch_seq]
  constructor
  · rintro ⟨u, v, rfl, hu, hv⟩
    rw [rmatch_cls] at hu
    obtain ⟨c, rfl, hc⟩ := hu
    rw [rmatch_star_cls] at hv
    refine ⟨by simp, ?_⟩
    intro d hd
    rcases List.mem_cons.1 hd with rfl | hd
    · exact hc
    · exact hv d hd
  · rintro ⟨hne, hall⟩
    cases x with
    | nil => exact absurd rfl hne
    | cons c cs =>
      refine ⟨[c], cs, rfl, ?_, ?_⟩
      · rw [rmatch_cls]
        exact ⟨c, rfl, hall c (List.mem_cons_self _ _)⟩
      · rw [rmatch_star_cls]
        exact fun d hd => hall d (List.mem_cons_of_mem _ hd)

theorem rmatch_chr (k : Nat) (x : List Nat) : rmatch (chr k) x = true ↔ x = [k] := by
  unfold chr
  rw [rmatch_cls]
  constructor
  · rintro ⟨c, rfl, hc⟩
    simp at hc
    rw [hc]
  · rintro rfl
    exact ⟨k, rfl, by simp⟩

end Regex

/-- What the email pattern accepts, part by part. -/
theorem emailRegexTest_iff (t : JSString) :
    emailRegexTest t = true ↔
      ∃ loc a b, t = loc ++ 64 :: (a ++ 46 :: b) ∧
        (loc ≠ [] ∧ ∀ c ∈ loc, notSpaceAt c = true) ∧
        (a ≠ [] ∧ ∀ c ∈ a, notSpaceAt c = true) ∧
        (b ≠ [] ∧ ∀ c ∈ b, notSpaceAt c = true) := by
  unfold emailRegexTest emailRegex
  simp only [Regex.rmatch_seq, Regex.rmatch_plus_cls, Regex.rmatch_chr]
  constructor
  · rintro ⟨loc, r1, rfl, hloc, at1, r2, rfl, rfl, a, r3, rfl, ha, dot1, b, rfl, rfl, hb⟩
    exact ⟨loc, a, b, by simp, hloc, ha, hb⟩
  · rintro ⟨loc, a, b, rfl, hloc, ha, hb⟩
    exact ⟨loc, 64 :: (a ++ 46 :: b), rfl, hloc, [64], a ++ 46 :: b, rfl, rfl,
      a, 46 :: b, rfl, ha, [46], b, rfl, rfl, hb⟩

theorem notSpaceAt_iff (c : Nat) :
    notSpaceAt c = true ↔ isWhiteSpace c = false ∧ c ≠ 64 := by
  unfold notSpaceAt
  cases isWhiteSpace c <;> simp

theorem count_at_eq_zero (l : List Nat) (h : ∀ c ∈ l, notSpaceAt c = true) :
    l.count 64 = 0 := by
  rw [List.count_eq_zero]
  intro hm
  have := (notSpaceAt_iff 64).1 (h 64 hm)
  exact this.2 rfl

/-- The email pattern accepts exactly the values of the shape `local@domain.tld`. -/
theorem emailRegexTest_iff_shape (t : JSString) : emailRegexTest t = true ↔ EmailShape t := by
  rw [emailRegexTest_iff]
  constructor
  · rintro ⟨loc, a, b, rfl, ⟨hl, hloc⟩, ⟨ha, hA⟩, ⟨hb, hB⟩⟩
    refine ⟨?_, ?_, loc, a ++ 46 :: b, rfl, hl, a, b, rfl, ha, hb⟩
    · intro c hc
      simp only [List.mem_append, List.mem_cons] at hc
      rcases hc with hc | rfl | hc | rfl | hc
      · exact ((notSpaceAt_iff c).1 (hloc c hc)).1
      · decide
      · exact ((notSpaceAt_iff c).1 (hA c hc)).1
      · decide
      · exact ((notSpaceAt_iff c).1 (hB c hc)).1
    · simp [List.count_append, List.count_cons, count_at_eq_zero _ hloc,
        count_at_eq_zero _ hA, count_at_eq_zero _ hB]
  · rintro ⟨hws, hcount, loc, dom, rfl, hl, a, b, rfl, ha, hb⟩
    have hc : loc.count 64 = 0 ∧ a.count 64 = 0 ∧ b.count 64 = 0 := by
      simp [List.count_append, List.count_cons] at hcount
      omega
    have key : ∀ l : List Nat, l.count 64 = 0 → (∀ c ∈ l, isWhiteSpace c = false) →
        ∀ c ∈ l, notSpaceAt c = true := by
      intro l h0 hw c hcl
      rw [notSpaceAt_iff]
      refine ⟨hw c hcl, ?_⟩
      rintro rfl
      exact (List.count_eq_zero.1 h0) hcl
    refine ⟨loc, a, b, rfl, ⟨hl, key loc hc.1 ?_⟩, ⟨ha, key a hc.2.1 ?_⟩,
      ⟨hb, key b hc.2.2 ?_⟩⟩
    · intro c h; exact hws c (by simp [h])
    · intro c h; exact hws c (by simp [h])
    · intro c h; exact hws c (by simp [h])

namespace Portfolio

/-! ## Field validation -/

theorem validateField_of_slot (f : Field) (slots : Slots) (old : JSString)
    (h : slots (f.name ++ js "Error") = some old) :
    validateField f slots =
      if (fieldCheck f.name (trim f.value)).1 then
        (true,
          { f with classList :=
              ClassList.add (js "success") (ClassList.remove (js "error") f.classList) },
          setText (f.name ++ js "Error") (js "") slots)
      else
        (false,
          { f with classList :=
              ClassList.add (js "error") (ClassList.remove (js "success") f.classList) },
          setText (f.name ++ js "Error") (fieldCheck f.name (trim f.value)).2 slots) := by
  unfold validateField
  simp only [h]

theorem validateField_of_no_slot (f : Field) (slots : Slots)
    (h : slots (f.name ++ js "Error") = none) :
    validateField f slots = (true, f, slots) := by
  unfold validateField
  simp only [h]

theorem setText_self (id text : JSString) (slots : Slots) :
    setText id text slots id = some text := by
  simp [setText]

theorem fieldCheck_name (t : JSString) :
    fieldCheck (js "name") t =
      if t = [] then (false, js "Name is required.")
      else if t.length < 2 then (false, js "Name must be at least 2 characters long.")
      else (true, js "") := by
  unfold fieldCheck
  rw [if_pos rfl]
  rfl

theorem fieldCheck_email (t : JSString) :
    fieldCheck (js "email") t =
      if t = [] then (false, js "Email is required.")
      else if !emailRegexTest t then (false, js "Please enter a valid email address.")
      else (true, js "") := by
  unfold fieldCheck
  rw [if_neg (by decide : ¬ js "email" = js "name"), if_pos rfl]
  rfl

theorem fieldCheck_message (t : JSString) :
    fieldCheck (js "message") t =
      if t = [] then (false, js "Message is required.")
      else if t.length < 10 then (false, js "Message must be at least 10 characters long.")
      else (true, js "") := by
  unfold fieldCheck
  rw [if_neg (by decide : ¬ js "message" = js "name"),
    if_neg (by decide : ¬ js "message" = js "email"), if_pos rfl]
  rfl

theorem validateField_fst (f : Field) (slots : Slots) (old : JSString)
    (h : slots (f.name ++ js "Error") = some old) :
    (validateField f slots).1 = (fieldCheck f.name (trim f.value)).1 := by
  rw [validateField_of_slot f slots old h]
  split <;> simp_all

theorem validateField_text (f : Field) (slots : Slots) (old : JSString)
    (h : slots (f.name ++ js "Error") = some old) :
    (validateField f slots).2.2 (f.name ++ js "Error") =
      some (if (fieldCheck f.name (trim f.value)).1 then js ""
        else (fieldCheck f.name (trim f.value)).2) := by
  rw [validateField_of_slot f slots old h]
  split <;> simp [setText_self]

theorem validateField_marks (f : Field) (slots : Slots) (old : JSString)
    (h : slots (f.name ++ js "Error") = some old) :
    ((validateField f slots).1 = true →
      js "success" ∈ (validateField f slots).2.1.classList ∧
      js "error" ∉ (validateField f slots).2.1.classList ∧
      (validateField f slots).2.2 (f.name ++ js "Error") = some (js "")) ∧
    ((validateField f slots).1 = false →
      js "error" ∈ (validateField f slots).2.1.classList ∧
      js "success" ∉ (validateField f slots).2.1.classList) := by
  rw [validateField_of_slot f slots old h]
  split
  · refine ⟨fun _ => ⟨ClassList.mem_add_self _ _, ?_, setText_self _ _ _⟩,
      fun hf => (by cases hf)⟩
    show js "error" ∉ ClassList.add (js "success") (ClassList.remove (js "error") f.classList)
    rw [ClassList.mem_add_iff, ClassList.mem_remove_iff]
    rintro (⟨-, hne⟩ | heq)
    · exact hne rfl
    · revert heq; decide
  · refine ⟨fun hf => (by cases hf), fun _ => ⟨ClassList.mem_add_self _ _, ?_⟩⟩
    show js "success" ∉ ClassList.add (js "error") (ClassList.remove (js "success") f.classList)
    rw [ClassList.mem_add_iff, ClassList.mem_remove_iff]
    rintro (⟨-, hne⟩ | heq)
    · exact hne rfl
    · revert heq; decide

theorem validateField_keeps (f : Field) (slots : Slots) :
    (validateField f slots).2.1.name = f.name ∧
    (validateField f slots).2.1.value = f.value ∧
    (validateField f slots).2.1.defaultValue = f.defaultValue := by
  unfold validateField
  dsimp only
  split
  · exact ⟨rfl, rfl, rfl⟩
  · split <;> exact ⟨rfl, rfl, rfl⟩

/-- C1, under the condition the code puts on it: for a field named `name` or
`message` whose error element exists, `validateField` is decided by the trimmed
value `t`. The name field is valid exactly when `t` has at least 2 code units,
the message field exactly when `t` has at least 10; the error text is
"Name is required." (resp. "Message is required.") when `t` is empty and the
"must be at least" text when `t` is too short; a valid field ends with the class
`success`, without the class `error` and with empty error text, an invalid one
with the class `error` and without `success`; name and value stay as they are. -/
theorem validateField_name_message (f : Field) (slots : Slots) (old : JSString)
    (hslot : slots (f.name ++ js "Error") = some old) :
    (f.name = js "name" →
      ((validateField f slots).1 = true ↔ 2 ≤ (trim f.value).length) ∧
      (trim f.value = [] →
        (validateField f slots).2.2 (js "nameError") = some (js "Name is required.")) ∧
      (trim f.value ≠ [] → (trim f.value).length < 2 →
        (validateField f slots).2.2 (js "nameError")
          = some (js "Name must be at least 2 characters long."))) ∧
    (f.name = js "message" →
      ((validateField f slots).1 = true ↔ 10 ≤ (trim f.value).length) ∧
      (trim f.value = [] →
        (validateField f slots).2.2 (js "messageError") = some (js "Message is required.")) ∧
      (trim f.value ≠ [] → (trim f.value).length < 10 →
        (validateField f slots).2.2 (js "messageError")
          = some (js "Message must be at least 10 characters long."))) ∧
    ((validateField f slots).1 = true →
      js "success" ∈ (validateField f slots).2.1.classList ∧
      js "error" ∉ (validateField f slots).2.1.classList ∧
      (validateField f slots).2.2 (f.name ++ js "Error") = some (js "")) ∧
    ((validateField f slots).1 = false →
      js "error" ∈ (validateField f slots).2.1.classList ∧
      js "success" ∉ (validateField f slots).2.1.classList) ∧
    (validateField f slots).2.1.name = f.name ∧
    (validateField f slots).2.1.value = f.value := by
  refine ⟨?_, ?_, (validateField_marks f slots old hslot).1,
    (validateField_marks f slots old hslot).2, (validateField_keeps f slots).1,
    (validateField_keeps f slots).2.1⟩
  · intro hn
    have htext := validateField_text f slots old hslot
    have hfst := validateField_fst f slots old hslot
    rw [hn] at htext hfst
    rw [fieldCheck_name] at htext hfst
    rw [show js "nameError" = js "name" ++ js "Error" from by decide]
    refine ⟨?_, ?_, ?_⟩
    · rw [hfst]
      by_cases h0 : trim f.value = []
      · simp [h0]
      · by_cases h2 : (trim f.value).length < 2
        · simp [h0, h2]
        · simp [h0, h2]; omega
    · intro h0
      rw [htext]; simp [h0]
    · intro h0 h2
      rw [htext]; simp [h0, h2]
  · intro hn
    have htext := validateField_text f slots old hslot
    have hfst := validateField_fst f slots old hslot
    rw [hn] at htext hfst
    rw [fieldCheck_message] at htext hfst
    rw [show js "messageError" = js "message" ++ js "Error" from by decide]
    refine ⟨?_, ?_, ?_⟩
    · rw [hfst]
      by_cases h0 : trim f.value = []
      · simp [h0]
      · by_cases h2 : (trim f.value).length < 10
        · simp [h0, h2]
        · simp [h0, h2]; omega
    · intro h0
      rw [htext]; simp [h0]
    · intro h0 h2
      rw [htext]; simp [h0, h2]

end Portfolio

namespace Portfolio

/-- Witness for C1: " A " is too short a name, "Al" is a valid one, a message of 9
code units is too short, one of 10 is valid, and a blank name is required. -/
theorem validateField_name_message_witness :
    (validateField ⟨js "name", js " A ", js "", []⟩ threeSlots).2.2 (js "nameError")
      = some (js "Name must be at least 2 characters long.") ∧
    (validateField ⟨js "name", js "Al", js "", []⟩ threeSlots).1 = true ∧
    (validateField ⟨js "name", js "  ", js "", []⟩ threeSlots).2.2 (js "nameError")
      = some (js "Name is required.") ∧
    (validateField ⟨js "message", js "123456789", js "", []⟩ threeSlots).2.2 (js "messageError")
      = some (js "Message must be at least 10 characters long.") ∧
    (validateField ⟨js "message", js "1234567890", js "", []⟩ threeSlots).1 = true ∧
    js "error" ∈ (validateField ⟨js "name", js "A", js "", []⟩ threeSlots).2.1.classList :=
  ⟨(validateField_name_message ⟨js "name", js " A ", js "", []⟩ threeSlots (js "")
      (by decide)).1 rfl |>.2.2 (by decide) (by decide),
   ((validateField_name_message ⟨js "name", js "Al", js "", []⟩ threeSlots (js "")
      (by decide)).1 rfl).1.2 (by decide),
   ((validateField_name_message ⟨js "name", js "  ", js "", []⟩ threeSlots (js "")
      (by decide)).1 rfl).2.1 (by decide),
   ((validateField_name_message ⟨js "message", js "123456789", js "", []⟩ threeSlots (js "")
      (by decide)).2.1 rfl).2.2 (by decide) (by decide),
   ((validateField_name_message ⟨js "message", js "1234567890", js "", []⟩ threeSlots (js "")
      (by decide)).2.1 rfl).1.2 (by decide),
   ((validateField_name_message ⟨js "name", js "A", js "", []⟩ threeSlots (js "")
      (by decide)).2.2.2.1 (by decide)).1⟩

/-- C1 as stated fails: in a document without the element `nameError`, the name
field with an empty value is reported valid and is left unmarked. -/
theorem validateField_name_without_slot :
    trim (js "") = [] ∧
    (validateField ⟨js "name", js "", js "", []⟩ noSlots).1 = true ∧
    (validateField ⟨js "name", js "", js "", []⟩ noSlots).2.1.classList = [] ∧
    (validateField ⟨js "name", js "", js "", []⟩ noSlots).2.2 (js "nameError") = none := by
  decide

/-- C2, under the condition the code puts on it: for the email field whose error
element exists, `validateField` reports the field valid exactly when the trimmed
value has the shape `local@domain.tld`; a trimmed value that is not empty and
not of that shape gets the error text "Please enter a valid email address.", an
empty one the text "Email is required."; and an invalid field ends with the
class `error`, a valid one with the class `success` and empty error text. -/
theorem validateField_email (f : Field) (slots : Slots) (old : JSString)
    (hslot : slots (f.name ++ js "Error") = some old) (hname : f.name = js "email") :
    ((validateField f slots).1 = true ↔ EmailShape (trim f.value)) ∧
    (trim f.value ≠ [] → ¬ EmailShape (trim f.value) →
      (validateField f slots).2.2 (js "emailError")
        = some (js "Please enter a valid email address.")) ∧
    (trim f.value = [] →
      (validateField f slots).2.2 (js "emailError") = some (js "Email is required.")) ∧
    ((validateField f slots).1 = true →
      js "success" ∈ (validateField f slots).2.1.classList ∧
      js "error" ∉ (validateField f slots).2.1.classList ∧
      (validateField f slots).2.2 (js "emailError") = some (js "")) ∧
    ((validateField f slots).1 = false →
      js "error" ∈ (validateField f slots).2.1.classList ∧
      js "success" ∉ (validateField f slots).2.1.classList) := by
  have htext := validateField_text f slots old hslot
  have hfst := validateField_fst f slots old hslot
  have hmarks := validateField_marks f slots old hslot
  rw [hname] at htext hfst hmarks
  rw [fieldCheck_email] at htext hfst
  rw [show js "email" ++ js "Error" = js "emailError" from by decide] at htext hmarks
  have hempty : ¬ EmailShape [] := by
    rintro ⟨-, hcount, -⟩
    simp at hcount
  refine ⟨?_, ?_, ?_, hmarks.1, hmarks.2⟩
  · rw [hfst, ← emailRegexTest_iff_shape]
    by_cases h0 : trim f.value = []
    · rw [h0]
      rw [h0, emailRegexTest_iff_shape] at *
      simp [hempty]
    · cases hm : emailRegexTest (trim f.value) <;> simp [h0, hm]
  · intro h0 hshape
    rw [← emailRegexTest_iff_shape] at hshape
    rw [htext]
    simp [h0, hshape]
  · intro h0
    rw [htext]
    simp [h0]

/-- Witness for C2: "a@b" is rejected with the error text, "a@b.com" is valid. -/
theorem validateField_email_witness :
    (validateField ⟨js "email", js "a@b", js "", []⟩ threeSlots).2.2 (js "emailError")
      = some (js "Please enter a valid email address.") ∧
    EmailShape (trim (js " a@b.com ")) :=
  ⟨(validateField_email ⟨js "email", js "a@b", js "", []⟩ threeSlots (js "")
      (by decide) rfl).2.1 (by decide)
      (fun h => absurd ((emailRegexTest_iff_shape _).2 h) (by decide)),
   (validateField_email ⟨js "email", js " a@b.com ", js "", []⟩ threeSlots (js "")
      (by decide) rfl).1.1 (by decide)⟩

/-- C2 as stated fails: in a document without the element `emailError`, the email
field with the value "a@b", which has no dot after the `@`, is reported valid. -/
theorem validateField_email_without_slot :
    (validateField ⟨js "email", js "a@b", js "", []⟩ noSlots).1 = true ∧
    ¬ EmailShape (trim (js "a@b")) :=
  ⟨by decide, fun h => absurd ((emailRegexTest_iff_shape _).2 h) (by decide)⟩

end Portfolio

namespace Portfolio

/-! ## The contact form as a whole -/

theorem errorId_ne (k j : FieldId) (h : k ≠ j) : k.toJS ++ js "Error" ≠ j.toJS ++ js "Error" := by
  cases k <;> cases j <;> first | exact absurd rfl h | decide

theorem fieldCheck_of_rule (k : FieldId) (t : JSString) (h : FieldRule k t) :
    fieldCheck k.toJS t = (true, js "") := by
  cases k with
  | name =>
    have h2 : 2 ≤ t.length := h
    have h0 : t ≠ [] := by rintro rfl; simp at h2
    show fieldCheck (js "name") t = _
    rw [fieldCheck_name, if_neg h0, if_neg (by omega)]
  | email =>
    have hs : EmailShape t := h
    have hm := (emailRegexTest_iff_shape t).2 hs
    have h0 : t ≠ [] := by
      rintro rfl
      obtain ⟨-, hcount, -⟩ := hs
      simp at hcount
    show fieldCheck (js "email") t = _
    rw [fieldCheck_email, if_neg h0, hm]
    rfl
  | message =>
    have h2 : 10 ≤ t.length := h
    have h0 : t ≠ [] := by rintro rfl; simp at h2
    show fieldCheck (js "message") t = _
    rw [fieldCheck_message, if_neg h0, if_neg (by omega)]

theorem fieldCheck_of_not_rule (k : FieldId) (t : JSString) (h : ¬ FieldRule k t) :
    fieldCheck k.toJS t = (false, ruleErrorText k t) := by
  cases k with
  | name =>
    have h2 : ¬ 2 ≤ t.length := h
    show fieldCheck (js "name") t = (false, ruleErrorText .name t)
    rw [fieldCheck_name]
    show _ = (false, if t = [] then js "Name is required."
      else js "Name must be at least 2 characters long.")
    by_cases h0 : t = []
    · rw [if_pos h0, if_pos h0]
    · rw [if_neg h0, if_neg h0, if_pos (by omega)]
  | email =>
    have hs : ¬ EmailShape t := h
    have hm : emailRegexTest t = false := by
      cases hq : emailRegexTest t with
      | false => rfl
      | true => exact absurd ((emailRegexTest_iff_shape t).1 hq) hs
    show fieldCheck (js "email") t = (false, ruleErrorText .email t)
    rw [fieldCheck_email]
    show _ = (false, if t = [] then js "Email is required."
      else js "Please enter a valid email address.")
    by_cases h0 : t = []
    · rw [if_pos h0, if_pos h0]
    · rw [if_neg h0, if_neg h0, hm]
      rfl
  | message =>
    have h2 : ¬ 10 ≤ t.length := h
    show fieldCheck (js "message") t = (false, ruleErrorText .message t)
    rw [fieldCheck_message]
    show _ = (false, if t = [] then js "Message is required."
      else js "Message must be at least 10 characters long.")
    by_cases h0 : t = []
    · rw [if_pos h0, if_pos h0]
    · rw [if_neg h0, if_neg h0, if_pos (by omega)]

theorem fieldCheck_fst_iff (k : FieldId) (t : JSString) :
    (fieldCheck k.toJS t).1 = true ↔ FieldRule k t := by
  constructor
  · intro h
    by_contra hn
    rw [fieldCheck_of_not_rule k t hn] at h
    cases h
  · intro h
    rw [fieldCheck_of_rule k t h]

/-- What `validateField` does to the page when the error element of the field
exists. -/
theorem validateFieldOn_of_slot (k : FieldId) (p : Page)
    (h : p.slots (k.toJS ++ js "Error") ≠ none) :
    validateFieldOn k p =
      ((fieldCheck k.toJS (trim (p.control k).value)).1,
        { (p.setControl k
            ⟨(p.control k).value, (p.control k).defaultValue,
              markedClasses (fieldCheck k.toJS (trim (p.control k).value)).1
                (p.control k).classList⟩) with
          slots :=
            setText (k.toJS ++ js "Error")
              (if (fieldCheck k.toJS (trim (p.control k).value)).1 then js ""
                else (fieldCheck k.toJS (trim (p.control k).value)).2) p.slots }) := by
  obtain ⟨old, hold⟩ := Option.ne_none_iff_exists'.1 h
  unfold validateFieldOn
  have hf : (p.field k).name ++ js "Error" = k.toJS ++ js "Error" := rfl
  rw [validateField_of_slot (p.field k) p.slots old (by rw [hf]; exact hold)]
  unfold markedClasses
  cases hc : (fieldCheck k.toJS (trim (p.control k).value)).1 <;>
    simp [Page.field, Page.store, hc]

end Portfolio

namespace Portfolio

theorem validateFieldOn_of_no_slot (k : FieldId) (p : Page)
    (h : p.slots (k.toJS ++ js "Error") = none) : validateFieldOn k p = (true, p) := by
  unfold validateFieldOn
  have hf : (p.field k).name ++ js "Error" = k.toJS ++ js "Error" := rfl
  rw [validateField_of_no_slot (p.field k) p.slots (by rw [hf]; exact h)]
  cases k <;> rfl

theorem setText_ne_none (i text id : JSString) (slots : Slots) (h : slots id ≠ none) :
    setText i text slots id ≠ none := by
  unfold setText
  split
  · simp
  · exact h

theorem setText_of_ne (i text id : JSString) (slots : Slots) (h : id ≠ i) :
    setText i text slots id = slots id := by
  unfold setText
  rw [if_neg h]

/-- What a validation of the field `k` leaves alone: the display of the form, the
success panel, the button and the timers; every value; the other controls and
their error elements; and the presence of every error element. -/
theorem validateFieldOn_frame (k : FieldId) (p : Page) :
    (validateFieldOn k p).2.display = p.display ∧
    (validateFieldOn k p).2.formSuccess = p.formSuccess ∧
    (validateFieldOn k p).2.submitButton = p.submitButton ∧
    (validateFieldOn k p).2.submitTimers = p.submitTimers ∧
    (validateFieldOn k p).2.resetTimers = p.resetTimers ∧
    (∀ j, ((validateFieldOn k p).2.control j).value = (p.control j).value) ∧
    (∀ j, ((validateFieldOn k p).2.control j).defaultValue = (p.control j).defaultValue) ∧
    (∀ j, j ≠ k → (validateFieldOn k p).2.control j = p.control j) ∧
    (∀ j, j ≠ k → (validateFieldOn k p).2.slots (j.toJS ++ js "Error")
      = p.slots (j.toJS ++ js "Error")) ∧
    (∀ id, p.slots id ≠ none → (validateFieldOn k p).2.slots id ≠ none) := by
  cases hs : p.slots (k.toJS ++ js "Error") with
  | none =>
    rw [validateFieldOn_of_no_slot k p hs]
    exact ⟨rfl, rfl, rfl, rfl, rfl, fun _ => rfl, fun _ => rfl, fun _ _ => rfl,
      fun _ _ => rfl, fun _ h => h⟩
  | some old =>
    rw [validateFieldOn_of_slot k p (by rw [hs]; simp)]
    refine ⟨?_, ?_, ?_, ?_, ?_, ?_, ?_, ?_, ?_, ?_⟩
    · cases k <;> rfl
    · cases k <;> rfl
    · cases k <;> rfl
    · cases k <;> rfl
    · cases k <;> rfl
    · intro j; cases k <;> cases j <;> rfl
    · intro j; cases k <;> cases j <;> rfl
    · intro j hj
      cases k <;> cases j <;> first | exact absurd rfl hj | rfl
    · intro j hj
      exact setText_of_ne _ _ _ _ (errorId_ne j k hj)
    · intro id hid
      exact setText_ne_none _ _ _ _ hid

/-- What a validation of the field `k` does when its error element exists. -/
theorem validateFieldOn_effect (k : FieldId) (p : Page)
    (h : p.slots (k.toJS ++ js "Error") ≠ none) :
    (validateFieldOn k p).1 = (fieldCheck k.toJS (trim (p.control k).value)).1 ∧
    ((validateFieldOn k p).2.control k).classList
      = markedClasses (fieldCheck k.toJS (trim (p.control k).value)).1 (p.control k).classList ∧
    (validateFieldOn k p).2.slots (k.toJS ++ js "Error")
      = some (if (fieldCheck k.toJS (trim (p.control k).value)).1 then js ""
          else (fieldCheck k.toJS (trim (p.control k).value)).2) := by
  rw [validateFieldOn_of_slot k p h]
  refine ⟨rfl, ?_, setText_self _ _ _⟩
  cases k <;> rfl

theorem clearErrorsOf_frame (k : FieldId) (p : Page) :
    (clearErrorsOf k p).display = p.display ∧
    (clearErrorsOf k p).formSuccess = p.formSuccess ∧
    (clearErrorsOf k p).submitButton = p.submitButton ∧
    (clearErrorsOf k p).submitTimers = p.submitTimers ∧
    (clearErrorsOf k p).resetTimers = p.resetTimers ∧
    (∀ j, ((clearErrorsOf k p).control j).value = (p.control j).value) ∧
    (∀ id, p.slots id ≠ none → (clearErrorsOf k p).slots id ≠ none) := by
  refine ⟨?_, ?_, ?_, ?_, ?_, ?_, ?_⟩
  · cases k <;> rfl
  · cases k <;> rfl
  · cases k <;> rfl
  · cases k <;> rfl
  · cases k <;> rfl
  · intro j; cases k <;> cases j <;> rfl
  · intro id hid
    have : (clearErrorsOf k p).slots =
        match p.slots (k.toJS ++ js "Error") with
        | none => p.slots
        | some _ => setText (k.toJS ++ js "Error") (js "") p.slots := by
      cases k <;> rfl
    rw [this]
    split
    · exact hid
    · exact setText_ne_none _ _ _ _ hid

theorem clearAllErrors_frame (p : Page) :
    (clearAllErrors p).display = p.display ∧
    (clearAllErrors p).formSuccess = p.formSuccess ∧
    (clearAllErrors p).submitButton = p.submitButton ∧
    (clearAllErrors p).submitTimers = p.submitTimers ∧
    (clearAllErrors p).resetTimers = p.resetTimers ∧
    (∀ j, ((clearAllErrors p).control j).value = (p.control j).value) ∧
    (∀ id, p.slots id ≠ none → (clearAllErrors p).slots id ≠ none) := by
  unfold clearAllErrors
  have h1 := clearErrorsOf_frame .name p
  have h2 := clearErrorsOf_frame .email (clearErrorsOf .name p)
  have h3 := clearErrorsOf_frame .message (clearErrorsOf .email (clearErrorsOf .name p))
  refine ⟨?_, ?_, ?_, ?_, ?_, ?_, ?_⟩
  · rw [h3.1, h2.1, h1.1]
  · rw [h3.2.1, h2.2.1, h1.2.1]
  · rw [h3.2.2.1, h2.2.2.1, h1.2.2.1]
  · rw [h3.2.2.2.1, h2.2.2.2.1, h1.2.2.2.1]
  · rw [h3.2.2.2.2.1, h2.2.2.2.2.1, h1.2.2.2.2.1]
  · intro j
    rw [h3.2.2.2.2.2.1, h2.2.2.2.2.2.1, h1.2.2.2.2.2.1]
  · intro id hid
    exact h3.2.2.2.2.2.2 id (h2.2.2.2.2.2.2 id (h1.2.2.2.2.2.2 id hid))

theorem validateForm_frame (p : Page) :
    (validateForm p).2.display = p.display ∧
    (validateForm p).2.formSuccess = p.formSuccess ∧
    (validateForm p).2.submitButton = p.submitButton ∧
    (validateForm p).2.submitTimers = p.submitTimers ∧
    (validateForm p).2.resetTimers = p.resetTimers := by
  have h1 := validateFieldOn_frame .name p
  have h2 := validateFieldOn_frame .email (validateFieldOn .name p).2
  have h3 := validateFieldOn_frame .message
    (validateFieldOn .email (validateFieldOn .name p).2).2
  unfold validateForm
  dsimp only
  refine ⟨?_, ?_, ?_, ?_, ?_⟩
  · rw [h3.1, h2.1, h1.1]
  · rw [h3.2.1, h2.2.1, h1.2.1]
  · rw [h3.2.2.1, h2.2.2.1, h1.2.2.1]
  · rw [h3.2.2.2.1, h2.2.2.2.1, h1.2.2.2.1]
  · rw [h3.2.2.2.2.1, h2.2.2.2.2.1, h1.2.2.2.2.1]

/-- What `validateForm` returns and leaves on each field, when the three error
elements exist. -/
theorem validateForm_effect (p : Page)
    (hslots : ∀ k : FieldId, p.slots (k.toJS ++ js "Error") ≠ none) :
    ((validateForm p).1 = true ↔
      ∀ k : FieldId, (fieldCheck k.toJS (trim (p.control k).value)).1 = true) ∧
    (∀ k : FieldId,
      ((validateForm p).2.control k).classList
        = markedClasses (fieldCheck k.toJS (trim (p.control k).value)).1
            (p.control k).classList ∧
      (validateForm p).2.slots (k.toJS ++ js "Error")
        = some (if (fieldCheck k.toJS (trim (p.control k).value)).1 then js ""
            else (fieldCheck k.toJS (trim (p.control k).value)).2)) := by
  have f1 := validateFieldOn_frame .name p
  have e1 := validateFieldOn_effect .name p (hslots .name)
  have f2 := validateFieldOn_frame .email (validateFieldOn .name p).2
  have e2 := validateFieldOn_effect .email (validateFieldOn .name p).2
    (f1.2.2.2.2.2.2.2.2.2 _ (hslots .email))
  have f3 := validateFieldOn_frame .message
    (validateFieldOn .email (validateFieldOn .name p).2).2
  have e3 := validateFieldOn_effect .message
    (validateFieldOn .email (validateFieldOn .name p).2).2
    (f2.2.2.2.2.2.2.2.2.2 _ (f1.2.2.2.2.2.2.2.2.2 _ (hslots .message)))
  have v2 := f1.2.2.2.2.2.1 .email
  have v3 : ((validateFieldOn .email (validateFieldOn .name p).2).2.control .message).value
      = (p.control .message).value := by
    rw [f2.2.2.2.2.2.1 .message, f1.2.2.2.2.2.1 .message]
  have c2 := f1.2.2.2.2.2.2.2.1 .email (by decide)
  have c3 : (validateFieldOn .email (validateFieldOn .name p).2).2.control .message
      = p.control .message := by
    rw [f2.2.2.2.2.2.2.2.1 .message (by decide), f1.2.2.2.2.2.2.2.1 .message (by decide)]
  rw [v2, c2] at e2
  rw [v3, c3] at e3
  constructor
  · have hflag : (validateForm p).1 =
        ((validateFieldOn .name p).1 &&
          ((validateFieldOn .email (validateFieldOn .name p).2).1 &&
            (validateFieldOn .message
              (validateFieldOn .email (validateFieldOn .name p).2).2).1)) := by
      unfold validateForm
      dsimp only
      cases (validateFieldOn .name p).1 <;>
        cases (validateFieldOn .email (validateFieldOn .name p).2).1 <;>
        cases (validateFieldOn .message
          (validateFieldOn .email (validateFieldOn .name p).2).2).1 <;> rfl
    rw [hflag, e1.1, e2.1, e3.1]
    simp only [Bool.and_eq_true]
    constructor
    · rintro ⟨h1, h2, h3⟩ k
      cases k
      · exact h1
      · exact h2
      · exact h3
    · intro h
      exact ⟨h .name, h .email, h .message⟩
  · have hfinal : (validateForm p).2 = (validateFieldOn .message
        (validateFieldOn .email (validateFieldOn .name p).2).2).2 := rfl
    intro k
    rw [hfinal]
    cases k
    · constructor
      · rw [f3.2.2.2.2.2.2.2.1 .name (by decide), f2.2.2.2.2.2.2.2.1 .name (by decide)]
        exact e1.2.1
      · rw [f3.2.2.2.2.2.2.2.2.1 .name (by decide), f2.2.2.2.2.2.2.2.2.1 .name (by decide)]
        exact e1.2.2
    · constructor
      · rw [f3.2.2.2.2.2.2.2.1 .email (by decide)]
        exact e2.2.1
      · rw [f3.2.2.2.2.2.2.2.2.1 .email (by decide)]
        exact e2.2.2
    · exact ⟨e3.2.1, e3.2.2⟩

end Portfolio

namespace Portfolio

theorem markedClasses_false (classList : ClassList) :
    js "error" ∈ markedClasses false classList ∧ js "success" ∉ markedClasses false classList := by
  refine ⟨ClassList.mem_add_self _ _, ?_⟩
  show js "success" ∉ ClassList.add (js "error") (ClassList.remove (js "success") classList)
  rw [ClassList.mem_add_iff, ClassList.mem_remove_iff]
  rintro (⟨-, hne⟩ | heq)
  · exact hne rfl
  · revert heq; decide

theorem markedClasses_true (classList : ClassList) :
    js "success" ∈ markedClasses true classList ∧ js "error" ∉ markedClasses true classList := by
  refine ⟨ClassList.mem_add_self _ _, ?_⟩
  show js "error" ∉ ClassList.add (js "success") (ClassList.remove (js "error") classList)
  rw [ClassList.mem_add_iff, ClassList.mem_remove_iff]
  rintro (⟨-, hne⟩ | heq)
  · exact hne rfl
  · revert heq; decide

theorem submitForm_controls (p : Page) :
    (∀ k, (submitForm p).control k = p.control k) ∧ (submitForm p).slots = p.slots ∧
    (submitForm p).display = p.display ∧ (submitForm p).formSuccess = p.formSuccess := by
  unfold submitForm
  split
  · exact ⟨fun _ => rfl, rfl, rfl, rfl⟩
  · exact ⟨fun k => by cases k <;> rfl, rfl, rfl, rfl⟩

/-- What the submit handler leaves on each field, when the three error elements
exist. -/
theorem onSubmit_fields (p : Page)
    (hslots : ∀ k : FieldId, p.slots (k.toJS ++ js "Error") ≠ none) (k : FieldId) :
    ((onSubmit p).control k).classList
      = markedClasses (fieldCheck k.toJS (trim (p.control k).value)).1
          ((clearAllErrors p).control k).classList ∧
    (onSubmit p).slots (k.toJS ++ js "Error")
      = some (if (fieldCheck k.toJS (trim (p.control k).value)).1 then js ""
          else (fieldCheck k.toJS (trim (p.control k).value)).2) := by
  have hc := clearAllErrors_frame p
  have he := (validateForm_effect (clearAllErrors p)
    (fun j => hc.2.2.2.2.2.2 _ (hslots j))).2 k
  rw [hc.2.2.2.2.2.1 k] at he
  unfold onSubmit
  dsimp only
  split
  · rw [(submitForm_controls _).1 k, (submitForm_controls _).2.1]
    exact he
  · exact he

/-- C3, under the condition the code puts on it: when the error elements of the
three fields exist, `validateForm` returns true exactly when the trimmed values
of all three fields satisfy their rules; the submit handler does not go on to
`submitForm` when `validateForm` returns false, so that with any rule broken no
timer is set and the submit button is left as it was; and after the submit
handler every field whose rule is broken carries the class `error` and its own
error text, all at once, while every field whose rule holds carries the class
`success` and an empty error text. -/
theorem submit_fails_closed (p : Page)
    (hslots : ∀ k : FieldId, p.slots (k.toJS ++ js "Error") ≠ none) :
    ((validateForm p).1 = true ↔ ∀ k : FieldId, FieldRule k (trim (p.control k).value)) ∧
    ((validateForm (clearAllErrors p)).1 = false →
      onSubmit p = (validateForm (clearAllErrors p)).2) ∧
    ((¬ ∀ k : FieldId, FieldRule k (trim (p.control k).value)) →
      (onSubmit p).submitTimers = p.submitTimers ∧
      (onSubmit p).submitButton = p.submitButton) ∧
    (∀ k : FieldId, ¬ FieldRule k (trim (p.control k).value) →
      js "error" ∈ ((onSubmit p).control k).classList ∧
      js "success" ∉ ((onSubmit p).control k).classList ∧
      (onSubmit p).slots (k.toJS ++ js "Error")
        = some (ruleErrorText k (trim (p.control k).value))) ∧
    (∀ k : FieldId, FieldRule k (trim (p.control k).value) →
      js "success" ∈ ((onSubmit p).control k).classList ∧
      js "error" ∉ ((onSubmit p).control k).classList ∧
      (onSubmit p).slots (k.toJS ++ js "Error") = some (js "")) := by
  have hiff : ∀ q : Page, (∀ k : FieldId, q.slots (k.toJS ++ js "Error") ≠ none) →
      ((validateForm q).1 = true ↔ ∀ k : FieldId, FieldRule k (trim (q.control k).value)) := by
    intro q hq
    rw [(validateForm_effect q hq).1]
    exact forall_congr' (fun k => fieldCheck_fst_iff k _)
  have hc := clearAllErrors_frame p
  have hcs : ∀ k : FieldId, (clearAllErrors p).slots (k.toJS ++ js "Error") ≠ none :=
    fun j => hc.2.2.2.2.2.2 _ (hslots j)
  have hrej : (validateForm (clearAllErrors p)).1 = false →
      onSubmit p = (validateForm (clearAllErrors p)).2 := by
    intro h
    unfold onSubmit
    dsimp only
    rw [h]
    rfl
  refine ⟨hiff p hslots, hrej, ?_, ?_, ?_⟩
  · intro hn
    have hfalse : (validateForm (clearAllErrors p)).1 = false := by
      cases hv : (validateForm (clearAllErrors p)).1 with
      | false => rfl
      | true =>
        exfalso
        apply hn
        intro k
        have := (hiff (clearAllErrors p) hcs).1 hv k
        rw [hc.2.2.2.2.2.1 k] at this
        exact this
    rw [hrej hfalse]
    have hf := validateForm_frame (clearAllErrors p)
    exact ⟨by rw [hf.2.2.2.1, hc.2.2.2.1], by rw [hf.2.2.1, hc.2.2.1]⟩
  · intro k hk
    have h := onSubmit_fields p hslots k
    rw [fieldCheck_of_not_rule k _ hk] at h
    rw [h.1, h.2]
    exact ⟨(markedClasses_false _).1, (markedClasses_false _).2, rfl⟩
  · intro k hk
    have h := onSubmit_fields p hslots k
    rw [fieldCheck_of_rule k _ hk] at h
    rw [h.1, h.2]
    exact ⟨(markedClasses_true _).1, (markedClasses_true _).2, rfl⟩

/-- Witness for C3: a submit with a one-letter name, the address "a@b" and a
message that is long enough sets no timer and leaves the button alone, marks the
name field with "Name must be at least 2 characters long." and the email field
with "Please enter a valid email address.", and marks the message field as a
success. -/
theorem submit_fails_closed_witness :
    ((onSubmit (samplePage (js "A") (js "a@b") (js "Hello there") threeSlots
        (js "Send Message"))).submitTimers = 0 ∧
      (onSubmit (samplePage (js "A") (js "a@b") (js "Hello there") threeSlots
        (js "Send Message"))).submitButton = some ⟨js "Send Message", false⟩) ∧
    (onSubmit (samplePage (js "A") (js "a@b") (js "Hello there") threeSlots
        (js "Send Message"))).slots (js "nameError")
      = some (js "Name must be at least 2 characters long.") ∧
    (onSubmit (samplePage (js "A") (js "a@b") (js "Hello there") threeSlots
        (js "Send Message"))).slots (js "emailError")
      = some (js "Please enter a valid email address.") ∧
    js "success" ∈ ((onSubmit (samplePage (js "A") (js "a@b") (js "Hello there") threeSlots
        (js "Send Message"))).control .message).classList :=
  ⟨(submit_fails_closed (samplePage (js "A") (js "a@b") (js "Hello there") threeSlots
      (js "Send Message")) (by intro k; cases k <;> decide)).2.2.1
      (fun h => absurd (h .name) (by show ¬ 2 ≤ (trim (js "A")).length; decide)),
   ((submit_fails_closed (samplePage (js "A") (js "a@b") (js "Hello there") threeSlots
      (js "Send Message")) (by intro k; cases k <;> decide)).2.2.2.1 .name
      (by show ¬ 2 ≤ (trim (js "A")).length; decide)).2.2,
   ((submit_fails_closed (samplePage (js "A") (js "a@b") (js "Hello there") threeSlots
      (js "Send Message")) (by intro k; cases k <;> decide)).2.2.2.1 .email
      (fun h => absurd ((emailRegexTest_iff_shape _).2 h) (by decide))).2.2,
   ((submit_fails_closed (samplePage (js "A") (js "a@b") (js "Hello there") threeSlots
      (js "Send Message")) (by intro k; cases k <;> decide)).2.2.2.2 .message
      (by show 10 ≤ (trim (js "Hello there")).length; decide)).1⟩

/-- C3 as stated fails: in a document without the element `emailError`, a form
with the address "a@b", which breaks the email rule, passes `validateForm`, and
the submit handler goes on to `submitForm`: the button is disabled and relabelled
and the submission timer is set. -/
theorem submit_open_without_slot :
    ¬ FieldRule .email
        (trim ((samplePage (js "Al") (js "a@b") (js "Hello there") twoSlots
          (js "Send Message")).control .email).value) ∧
    (validateForm (clearAllErrors (samplePage (js "Al") (js "a@b") (js "Hello there") twoSlots
        (js "Send Message")))).1 = true ∧
    (onSubmit (samplePage (js "Al") (js "a@b") (js "Hello there") twoSlots
        (js "Send Message"))).submitTimers = 1 ∧
    (onSubmit (samplePage (js "Al") (js "a@b") (js "Hello there") twoSlots
        (js "Send Message"))).submitButton = some ⟨js "Sending...", true⟩ :=
  ⟨fun h => absurd ((emailRegexTest_iff_shape _).2 h) (by decide),
   by decide, by decide, by decide⟩

end Portfolio

namespace Portfolio

/-! ## Form and success panel -/

theorem clearFieldErrorOn_frame (k : FieldId) (p : Page) :
    (clearFieldErrorOn k p).display = p.display ∧
    (clearFieldErrorOn k p).formSuccess = p.formSuccess := by
  unfold clearFieldErrorOn clearFieldError
  dsimp only
  split
  · cases k <;> exact ⟨rfl, rfl⟩
  · cases k <;> exact ⟨rfl, rfl⟩

theorem setControl_frame (k : FieldId) (c : Control) (p : Page) :
    (p.setControl k c).display = p.display ∧ (p.setControl k c).formSuccess = p.formSuccess := by
  cases k <;> exact ⟨rfl, rfl⟩

theorem onSubmit_frame (p : Page) :
    (onSubmit p).display = p.display ∧ (onSubmit p).formSuccess = p.formSuccess := by
  have hc := clearAllErrors_frame p
  have hv := validateForm_frame (clearAllErrors p)
  unfold onSubmit
  dsimp only
  split
  · rw [(submitForm_controls _).2.2.1, (submitForm_controls _).2.2.2, hv.1, hv.2.1, hc.1,
      hc.2.1]
    exact ⟨rfl, rfl⟩
  · rw [hv.1, hv.2.1, hc.1, hc.2.1]
    exact ⟨rfl, rfl⟩

theorem resetForm_exclusive (p : Page) (h : ¬ (p.formVisible ∧ p.successVisible)) :
    ¬ ((resetForm p).formVisible ∧ (resetForm p).successVisible) := by
  unfold resetForm
  split
  · exact h
  · rintro ⟨-, hs⟩
    apply hs
    show js "hidden" ∈ (clearAllErrors _).formSuccess
    rw [(clearAllErrors_frame _).2.1]
    exact ClassList.mem_add_self _ _

theorem formStep_exclusive (p q : Page) (e : FormEvent) (hstep : formStep p e = some q)
    (h : ¬ (p.formVisible ∧ p.successVisible)) : ¬ (q.formVisible ∧ q.successVisible) := by
  have transfer : ∀ r : Page, r.display = p.display → r.formSuccess = p.formSuccess →
      ¬ (r.formVisible ∧ r.successVisible) := by
    intro r hd hf
    unfold Page.formVisible Page.successVisible at *
    rw [hd, hf]
    exact h
  cases e with
  | input k v =>
    simp only [formStep, Option.some.injEq] at hstep
    subst hstep
    apply transfer
    · rw [(clearFieldErrorOn_frame _ _).1, (setControl_frame _ _ _).1]
    · rw [(clearFieldErrorOn_frame _ _).2, (setControl_frame _ _ _).2]
  | blur k =>
    simp only [formStep, Option.some.injEq] at hstep
    subst hstep
    exact transfer _ (validateFieldOn_frame k p).1 (validateFieldOn_frame k p).2.1
  | submit =>
    simp only [formStep, Option.some.injEq] at hstep
    subst hstep
    exact transfer _ (onSubmit_frame p).1 (onSubmit_frame p).2
  | submitTimer =>
    simp only [formStep] at hstep
    split at hstep
    · cases hstep
    · simp only [Option.some.injEq] at hstep
      subst hstep
      rintro ⟨hv, -⟩
      exact hv rfl
  | resetTimer =>
    simp only [formStep] at hstep
    split at hstep
    · cases hstep
    · simp only [Option.some.injEq] at hstep
      subst hstep
      exact resetForm_exclusive _ h

theorem formRun_exclusive (p q : Page) (events : List FormEvent)
    (hrun : formRun p events = some q) (h : ¬ (p.formVisible ∧ p.successVisible)) :
    ¬ (q.formVisible ∧ q.successVisible) := by
  induction events generalizing p with
  | nil =>
    simp only [formRun, Option.some.injEq] at hrun
    subst hrun
    exact h
  | cons e es ih =>
    simp only [formRun] at hrun
    cases hs : formStep p e with
    | none => rw [hs] at hrun; cases hrun
    | some r =>
      rw [hs] at hrun
      exact ih r hrun (formStep_exclusive p r e hs h)

/-- C5: in every state the contact form reaches after `setupContactForm`, through
any sequence of edits, blurs, submit attempts, firings of the 1000ms submission
timer and firings of the 3000ms reset timer, the form (display other than
"none") and the success panel (no class `hidden`) are not both visible. -/
theorem form_and_success_exclusive (p0 q : Page) (events : List FormEvent)
    (hrun : formRun (setupContactForm p0) events = some q) :
    ¬ (q.formVisible ∧ q.successVisible) := by
  apply formRun_exclusive _ q events hrun
  rintro ⟨-, hs⟩
  exact hs (ClassList.mem_add_self _ _)

/-- Witness for C5: on a page whose markup shows both the form and the success
panel, a valid submission followed by the submission timer leaves the success
panel visible and the form hidden. -/
theorem form_and_success_exclusive_witness :
    ∃ q, formRun (setupContactForm (samplePage (js "Al") (js "a@b.com") (js "Hello there")
        threeSlots (js "Send Message"))) [.blur .name, .submit, .submitTimer] = some q ∧
      q.successVisible ∧ ¬ (q.formVisible ∧ q.successVisible) :=
  ⟨_, rfl, by decide,
    form_and_success_exclusive (samplePage (js "Al") (js "a@b.com") (js "Hello there")
      threeSlots (js "Send Message")) _ [.blur .name, .submit, .submitTimer] rfl⟩

/-- C6 fails on the code: on a form with three valid fields whose submit button is
labelled "Send", the submission, the submission timer and the reset timer leave
the form displayed, the fields empty and undecorated, the error texts empty, the
success panel hidden and the button enabled, but the button is labelled
"Send Message", not "Send": `resetForm` writes a fixed label, whatever the label
was, and the label that `submitForm` read before it wrote "Sending..." is never
used. -/
theorem resetForm_label_not_restored :
    (samplePage (js "Al") (js "a@b.com") (js "Hello there") threeSlots
      (js "Send")).submitButton = some ⟨js "Send", false⟩ ∧
    (formRun (samplePage (js "Al") (js "a@b.com") (js "Hello there") threeSlots (js "Send"))
      [.submit]).map (fun q => (q.submitButton, q.submitTimers))
      = some (some ⟨js "Sending...", true⟩, 1) ∧
    (formRun (samplePage (js "Al") (js "a@b.com") (js "Hello there") threeSlots (js "Send"))
      [.submit, .submitTimer]).map (fun q => (q.display, q.formSuccess, q.resetTimers))
      = some (js "none", [js "form-success"], 1) ∧
    (formRun (samplePage (js "Al") (js "a@b.com") (js "Hello there") threeSlots (js "Send"))
      [.submit, .submitTimer, .resetTimer]).map (fun q => q.submitButton)
      = some (some ⟨js "Send Message", false⟩) ∧
    (formRun (samplePage (js "Al") (js "a@b.com") (js "Hello there") threeSlots (js "Send"))
      [.submit, .submitTimer, .resetTimer]).map
        (fun q => (q.display, q.formSuccess, q.name, q.email, q.message,
          q.slots (js "nameError"), q.slots (js "emailError"), q.slots (js "messageError")))
      = some (js "block", [js "form-success", js "hidden"],
          ⟨js "", js "", [js "form-control"]⟩, ⟨js "", js "", [js "form-control"]⟩,
          ⟨js "", js "", [js "form-control"]⟩, some (js ""), some (js ""), some (js "")) ∧
    (∀ label : JSString,
      (formRun (samplePage (js "Al") (js "a@b.com") (js "Hello there") threeSlots label)
        [.submit, .submitTimer, .resetTimer]).map (fun q => q.submitButton)
        = some (some ⟨js "Send Message", false⟩)) :=
  ⟨rfl, by decide, by decide, by decide, rfl, fun _ => rfl⟩

end Portfolio

namespace Portfolio

/-! ## Active navigation -/

theorem activeCount_cons (l : NavLink) (ls : List NavLink) :
    activeCount (l :: ls)
      = (if js "active" ∈ l.classList then 1 else 0) + activeCount ls := by
  unfold activeCount
  by_cases h : js "active" ∈ l.classList
  · simp [List.filter_cons, ClassList.has, h]; omega
  · simp [List.filter_cons, ClassList.has, h]

theorem activeCount_cleared (ls : List NavLink) :
    activeCount (ls.map
      (fun link => { link with classList := ClassList.remove (js "active") link.classList }))
      = 0 := by
  induction ls with
  | nil => rfl
  | cons l ls ih =>
    rw [List.map_cons, activeCount_cons, ih, if_neg (ClassList.not_mem_remove _ _)]

theorem activeCount_activateFirst_le (target : JSString) (ls : List NavLink) :
    activeCount (activateFirst target ls) ≤ activeCount ls + 1 := by
  induction ls with
  | nil => simp [activateFirst, activeCount]
  | cons l ls ih =>
    unfold activateFirst
    split
    · rw [activeCount_cons, activeCount_cons]
      dsimp only
      split <;> split <;> omega
    · rw [activeCount_cons, activeCount_cons]
      omega

theorem activeCount_activateFirst_of_mem (target : JSString) (ls : List NavLink)
    (h0 : activeCount ls = 0) (h : ∃ l ∈ ls, l.href = target) :
    activeCount (activateFirst target ls) = 1 := by
  induction ls with
  | nil => simp at h
  | cons l ls ih =>
    rw [activeCount_cons] at h0
    unfold activateFirst
    split
    · rw [activeCount_cons]
      dsimp only
      rw [if_pos (ClassList.mem_add_self _ _)]
      omega
    · rename_i hne
      rw [activeCount_cons]
      have hl : ¬ js "active" ∈ l.classList := by
        intro hc; rw [if_pos hc] at h0; omega
      rw [if_neg hl] at h0 ⊢
      obtain ⟨x, hx, hxt⟩ := h
      rcases List.mem_cons.1 hx with rfl | hx
      · exact absurd hxt hne
      · rw [ih (by omega) ⟨x, hx, hxt⟩]

theorem href_of_active_activateFirst (target : JSString) (ls : List NavLink)
    (h0 : ∀ l ∈ ls, js "active" ∉ l.classList) :
    ∀ l ∈ activateFirst target ls, js "active" ∈ l.classList → l.href = target := by
  induction ls with
  | nil => intro l hl; simp [activateFirst] at hl
  | cons x xs ih =>
    intro l hl hact
    unfold activateFirst at hl
    split at hl
    · rename_i hx
      rcases List.mem_cons.1 hl with rfl | hl
      · exact hx
      · exact absurd hact (h0 l (List.mem_cons_of_mem _ hl))
    · rcases List.mem_cons.1 hl with rfl | hl
      · exact absurd hact (h0 _ (List.mem_cons_self _ _))
      · exact ih (fun y hy => h0 y (List.mem_cons_of_mem _ hy)) l hl hact

theorem map_href_activateFirst (target : JSString) (ls : List NavLink) :
    (activateFirst target ls).map NavLink.href = ls.map NavLink.href := by
  induction ls with
  | nil => rfl
  | cons x xs ih =>
    unfold activateFirst
    split
    · rfl
    · simp [ih]

theorem not_active_of_activeCount_zero (ls : List NavLink) (h : activeCount ls = 0) :
    ∀ l ∈ ls, js "active" ∉ l.classList := by
  induction ls with
  | nil => intro l hl; simp at hl
  | cons x xs ih =>
    rw [activeCount_cons] at h
    intro l hl
    rcases List.mem_cons.1 hl with rfl | hl
    · intro hc; rw [if_pos hc] at h; omega
    · exact ih (by omega) l hl

/-! ### The selector text for a plain id -/

theorem char_toNat_valid (c : Char) :
    c.toNat < 55296 ∨ (57343 < c.toNat ∧ c.toNat < 1114112) := c.valid

theorem decodeUnits_utf16 (c : Char) (tail : JSString) :
    decodeUnits none (utf16 c ++ tail) = c.toNat :: decodeUnits none tail := by
  have hv := char_toNat_valid c
  unfold utf16
  by_cases h : c.toNat < 65536
  · rw [if_pos h]
    show decodeUnits none (c.toNat :: tail) = _
    rw [decodeUnits, if_neg (by omega), if_neg (by omega)]
  · rw [if_neg h]
    show decodeUnits none
      ((55296 + (c.toNat - 65536) / 1024) :: (56320 + (c.toNat - 65536) % 1024) :: tail) = _
    rw [decodeUnits, if_pos (by omega), decodeUnits, if_pos (by omega)]
    have hval : 65536 + (55296 + (c.toNat - 65536) / 1024 - 55296) * 1024
        + (56320 + (c.toNat - 65536) % 1024 - 56320) = c.toNat := by omega
    rw [hval]

theorem decodeUnits_chars (s : List Char) (tail : JSString) :
    decodeUnits none ((s.map utf16).flatten ++ tail)
      = s.map Char.toNat ++ decodeUnits none tail := by
  induction s with
  | nil => rfl
  | cons c s ih =>
    rw [List.map_cons, List.flatten_cons, List.append_assoc, decodeUnits_utf16, ih]
    rfl

theorem normalizePoints_plain (pts tail : List Nat)
    (h : ∀ p ∈ pts, p ≠ 0 ∧ p ≠ 10 ∧ p ≠ 12 ∧ p ≠ 13) :
    normalizePoints false (pts ++ tail) = pts ++ normalizePoints false tail := by
  induction pts with
  | nil => rfl
  | cons p pts ih =>
    have hp := h p (List.mem_cons_self _ _)
    rw [List.cons_append, normalizePoints, if_neg hp.2.2.2, if_neg hp.2.1, if_neg hp.2.2.1,
      if_neg hp.1, ih (fun q hq => h q (List.mem_cons_of_mem _ hq))]
    rfl

theorem consumeString_plain (pts acc tail : List Nat)
    (h : ∀ p ∈ pts, p ≠ 34 ∧ p ≠ 10 ∧ p ≠ 92) :
    consumeString .plain acc (pts ++ tail) = consumeString .plain (pts.reverse ++ acc) tail := by
  induction pts generalizing acc with
  | nil => rfl
  | cons p pts ih =>
    have hp := h p (List.mem_cons_self _ _)
    rw [List.cons_append, consumeString, if_neg hp.1, if_neg hp.2.1, if_neg hp.2.2,
      ih (p :: acc) (fun q hq => h q (List.mem_cons_of_mem _ hq))]
    simp

theorem encodePoints_chars (s : List Char) :
    encodePoints (s.map Char.toNat) = (s.map utf16).flatten := by
  unfold encodePoints
  rw [List.map_map]
  rfl

/-- For a plain id the selector asks for the href `#` followed by the id. -/
theorem navSelector_plain (id : JSString) (h : PlainId id) :
    navSelector id = .href (js "#" ++ id) := by
  obtain ⟨s, hid, hs⟩ := h
  have hs1 : ∀ c ∈ ('#' :: s), c.toNat ≠ 0 ∧ c.toNat ≠ 10 ∧ c.toNat ≠ 12 ∧ c.toNat ≠ 13 ∧
      c.toNat ≠ 34 ∧ c.toNat ≠ 92 := by
    intro c hc
    rcases List.mem_cons.1 hc with rfl | hc
    · decide
    · exact hs c hc
  have htext : js "#" ++ id ++ js "\"]" = (('#' :: s).map utf16).flatten ++ [34, 93] := by
    rw [hid]
    rfl
  have hpre : cssPreprocess (js "#" ++ id ++ js "\"]") = ('#' :: s).map Char.toNat ++ [34, 93] := by
    unfold cssPreprocess
    rw [htext, decodeUnits_chars]
    rw [show decodeUnits none [34, 93] = [34, 93] from by decide]
    rw [normalizePoints_plain]
    · rfl
    · intro p hp
      obtain ⟨c, hc, rfl⟩ := List.mem_map.1 hp
      have := hs1 c hc
      exact ⟨this.1, this.2.1, this.2.2.1, this.2.2.2.1⟩
  have hcons : consumeString .plain [] (('#' :: s).map Char.toNat ++ [34, 93])
      = .closed (('#' :: s).map Char.toNat).reverse [93] := by
    rw [consumeString_plain]
    · rw [List.append_nil, consumeString, if_pos rfl]
    · intro p hp
      obtain ⟨c, hc, rfl⟩ := List.mem_map.1 hp
      have := hs1 c hc
      exact ⟨this.2.2.2.2.1, this.2.1, this.2.2.2.2.2⟩
  unfold navSelector
  rw [hpre, hcons]
  dsimp only
  rw [if_pos rfl, List.reverse_reverse, encodePoints_chars, hid]
  rfl

/-! ### One entry and a batch -/

theorem handleEntry_of_not_intersecting (ls : List NavLink) (e : ObserverEntry)
    (h : e.isIntersecting = false) : handleEntry ls e = .done ls := by
  simp [handleEntry, h]

theorem handleEntry_plain (ls : List NavLink) (e : ObserverEntry)
    (h : e.isIntersecting = true) (hid : PlainId e.targetId) :
    handleEntry ls e = .done (activateFirst (js "#" ++ e.targetId) (ls.map
      (fun link => { link with classList := ClassList.remove (js "active") link.classList }))) := by
  unfold handleEntry
  rw [if_pos h]
  dsimp only
  rw [navSelector_plain _ hid]

/-- Whatever the id is, an intersecting entry leaves at most one active link and
the hrefs as they were, also when `querySelector` throws. -/
theorem handleEntry_outcome (ls : List NavLink) (e : ObserverEntry) (r : List NavLink)
    (hr : handleEntry ls e = .done r ∨ handleEntry ls e = .threw r) :
    (e.isIntersecting = true → activeCount r ≤ 1) ∧ (e.isIntersecting = false → r = ls) ∧
      r.map NavLink.href = ls.map NavLink.href := by
  unfold handleEntry at hr
  cases he : e.isIntersecting with
  | false =>
    rw [he] at hr
    simp only [Bool.false_eq_true, if_false] at hr
    rcases hr with hr | hr
    · cases hr
      exact ⟨fun h => (by cases h), fun _ => rfl, rfl⟩
    · cases hr
  | true =>
    rw [he] at hr
    simp only [if_true] at hr
    cases hsel : navSelector e.targetId with
    | href value =>
      rw [hsel] at hr
      rcases hr with hr | hr
      · cases hr
        refine ⟨fun _ => ?_, fun h => (by cases h), ?_⟩
        · have := activeCount_activateFirst_le value (ls.map
            (fun link => { link with classList := ClassList.remove (js "active") link.classList }))
          rw [activeCount_cleared] at this
          simpa using this
        · simp [map_href_activateFirst, List.map_map, Function.comp_def]
      · cases hr
    | syntaxError =>
      rw [hsel] at hr
      rcases hr with hr | hr
      · cases hr
      · cases hr
        refine ⟨fun _ => ?_, fun h => (by cases h), ?_⟩
        · rw [activeCount_cleared]
          exact Nat.zero_le _
        · simp [List.map_map, Function.comp_def]
    | beyond =>
      rw [hsel] at hr
      rcases hr with hr | hr <;> cases hr

theorem observerCallback_cons (ls : List NavLink) (e : ObserverEntry)
    (es : List ObserverEntry) :
    observerCallback ls (e :: es) =
      match handleEntry ls e with
      | .done r => observerCallback r es
      | .threw r => .threw r
      | .beyond => .beyond := rfl

theorem observerCallback_outcome (es : List ObserverEntry) (ls r : List NavLink)
    (hr : observerCallback ls es = .done r ∨ observerCallback ls es = .threw r) :
    (activeCount ls ≤ 1 → activeCount r ≤ 1) ∧ r.map NavLink.href = ls.map NavLink.href := by
  induction es generalizing ls with
  | nil =>
    rcases hr with hr | hr
    · cases hr
      exact ⟨fun h => h, rfl⟩
    · cases hr
  | cons e es ih =>
    rw [observerCallback_cons] at hr
    cases hstep : handleEntry ls e with
    | done m =>
      rw [hstep] at hr
      have hm := handleEntry_outcome ls e m (Or.inl hstep)
      have hrest := ih m hr
      refine ⟨fun h => hrest.1 ?_, hrest.2.trans hm.2.2⟩
      cases he : e.isIntersecting with
      | true => exact hm.1 he
      | false => rw [hm.2.1 he]; exact h
    | threw m =>
      rw [hstep] at hr
      have hm := handleEntry_outcome ls e m (Or.inr hstep)
      rcases hr with hr | hr
      · cases hr
      · cases hr
        refine ⟨fun h => ?_, hm.2.2⟩
        cases he : e.isIntersecting with
        | true => exact hm.1 he
        | false => rw [hm.2.1 he]; exact h
    | beyond =>
      rw [hstep] at hr
      rcases hr with hr | hr <;> cases hr

theorem observerCallback_of_not_intersecting (ls : List NavLink) (es : List ObserverEntry)
    (h : ∀ x ∈ es, x.isIntersecting = false) : observerCallback ls es = .done ls := by
  induction es with
  | nil => rfl
  | cons e es ih =>
    rw [observerCallback_cons,
      handleEntry_of_not_intersecting ls e (h e (List.mem_cons_self _ _))]
    exact ih (fun x hx => h x (List.mem_cons_of_mem _ hx))

theorem observerCallback_append (es fs : List ObserverEntry) (ls r : List NavLink)
    (h : observerCallback ls es = .done r) :
    observerCallback ls (es ++ fs) = observerCallback r fs := by
  induction es generalizing ls with
  | nil =>
    cases h
    rfl
  | cons e es ih =>
    rw [observerCallback_cons] at h
    rw [List.cons_append, observerCallback_cons]
    cases hstep : handleEntry ls e with
    | done m =>
      rw [hstep] at h
      exact ih m h
    | threw m => rw [hstep] at h; cases h
    | beyond => rw [hstep] at h; cases h

/-- A batch whose intersecting sections have plain ids runs to its end. -/
theorem observerCallback_plain (es : List ObserverEntry) (ls : List NavLink)
    (h : ∀ x ∈ es, x.isIntersecting = true → PlainId x.targetId) :
    ∃ r, observerCallback ls es = .done r := by
  induction es generalizing ls with
  | nil => exact ⟨ls, rfl⟩
  | cons e es ih =>
    rw [observerCallback_cons]
    cases he : e.isIntersecting with
    | false =>
      rw [handleEntry_of_not_intersecting ls e he]
      exact ih _ (fun x hx => h x (List.mem_cons_of_mem _ hx))
    | true =>
      rw [handleEntry_plain ls e he (h e (List.mem_cons_self _ _) he)]
      exact ih _ (fun x hx => h x (List.mem_cons_of_mem _ hx))

/-- C9, for section ids that read as themselves inside the selector: in the
active-navigation callback, after an intersecting entry for a section with a
plain id at most one navigation link carries the flag `active`; an entry that is
not intersecting changes nothing; after a whole batch whose intersecting
sections have plain ids and whose last intersecting entry is `e`, at most one
link is active, every active link has the href `#` followed by the id of the
section of `e`, and exactly one link is active when a link with that href
exists; from a state with at most one active link every such batch runs to its
end with at most one active link. Whatever the ids are, an intersecting entry
and a batch from a state with at most one active link leave at most one active
link, also when `querySelector` throws. -/
theorem active_navigation_single (navLinks : List NavLink) :
    (∀ e : ObserverEntry, e.isIntersecting = true → PlainId e.targetId →
      ∃ r, handleEntry navLinks e = .done r ∧ activeCount r ≤ 1) ∧
    (∀ e : ObserverEntry, e.isIntersecting = false →
      handleEntry navLinks e = .done navLinks) ∧
    (∀ (pre post : List ObserverEntry) (e : ObserverEntry),
      (∀ x ∈ pre, x.isIntersecting = true → PlainId x.targetId) →
      e.isIntersecting = true → PlainId e.targetId →
      (∀ x ∈ post, x.isIntersecting = false) →
      ∃ r, observerCallback navLinks (pre ++ e :: post) = .done r ∧
        activeCount r ≤ 1 ∧
        (∀ l ∈ r, js "active" ∈ l.classList → l.href = js "#" ++ e.targetId) ∧
        ((∃ l ∈ navLinks, l.href = js "#" ++ e.targetId) → activeCount r = 1)) ∧
    (activeCount navLinks ≤ 1 → ∀ entries : List ObserverEntry,
      (∀ x ∈ entries, x.isIntersecting = true → PlainId x.targetId) →
      ∃ r, observerCallback navLinks entries = .done r ∧ activeCount r ≤ 1) ∧
    (∀ (e : ObserverEntry) (r : List NavLink), e.isIntersecting = true →
      handleEntry navLinks e = .done r ∨ handleEntry navLinks e = .threw r →
      activeCount r ≤ 1) ∧
    (activeCount navLinks ≤ 1 → ∀ (entries : List ObserverEntry) (r : List NavLink),
      observerCallback navLinks entries = .done r ∨
        observerCallback navLinks entries = .threw r →
      activeCount r ≤ 1) := by
  refine ⟨?_, handleEntry_of_not_intersecting navLinks, ?_, ?_, ?_, ?_⟩
  · intro e he hid
    exact ⟨_, handleEntry_plain navLinks e he hid,
      (handleEntry_outcome navLinks e _ (Or.inl (handleEntry_plain navLinks e he hid))).1 he⟩
  · intro pre post e hpre he hid hpost
    obtain ⟨m, hm⟩ := observerCallback_plain pre navLinks hpre
    have hstep := handleEntry_plain m e he hid
    have hrun : observerCallback navLinks (pre ++ e :: post)
        = .done (activateFirst (js "#" ++ e.targetId) (m.map
          (fun link =>
            { link with classList := ClassList.remove (js "active") link.classList }))) := by
      rw [observerCallback_append pre (e :: post) navLinks m hm, observerCallback_cons, hstep]
      exact observerCallback_of_not_intersecting _ _ hpost
    refine ⟨_, hrun, ?_, ?_, ?_⟩
    · exact (handleEntry_outcome m e _ (Or.inl hstep)).1 he
    · exact href_of_active_activateFirst _ _
        (not_active_of_activeCount_zero _ (activeCount_cleared _))
    · rintro ⟨l, hl, hhref⟩
      apply activeCount_activateFirst_of_mem _ _ (activeCount_cleared _)
      have hmem : l.href ∈ m.map NavLink.href := by
        rw [(observerCallback_outcome pre navLinks m (Or.inl hm)).2]
        exact List.mem_map_of_mem _ hl
      obtain ⟨x, hx, hxl⟩ := List.mem_map.1 hmem
      exact ⟨{ x with classList := ClassList.remove (js "active") x.classList },
        List.mem_map_of_mem _ hx, by rw [← hhref]; exact hxl⟩
  · intro h entries hplain
    obtain ⟨r, hr⟩ := observerCallback_plain entries navLinks hplain
    exact ⟨r, hr, (observerCallback_outcome entries navLinks r (Or.inl hr)).1 h⟩
  · intro e r he hr
    exact (handleEntry_outcome navLinks e r hr).1 he
  · intro h entries r hr
    exact (observerCallback_outcome entries navLinks r hr).1 h

/-- Witness for C9: with the link to `#home` active, a batch that reports the
section `about` leaving, then entering, and `home` leaving moves the flag to the
link to `#about`; and an entry whose id holds a line feed makes `querySelector`
throw with no link active. -/
theorem active_navigation_single_witness :
    (∃ r, handleEntry
        [⟨js "#home", [js "nav-link", js "active"]⟩, ⟨js "#about", [js "nav-link"]⟩]
        ⟨true, js "about"⟩ = .done r ∧ activeCount r ≤ 1) ∧
    handleEntry
      [⟨js "#home", [js "nav-link", js "active"]⟩, ⟨js "#about", [js "nav-link"]⟩]
      ⟨false, js "about"⟩
      = .done [⟨js "#home", [js "nav-link", js "active"]⟩, ⟨js "#about", [js "nav-link"]⟩] ∧
    (∃ r, observerCallback
        [⟨js "#home", [js "nav-link", js "active"]⟩, ⟨js "#about", [js "nav-link"]⟩]
        ([⟨false, js "about"⟩] ++ ⟨true, js "about"⟩ :: [⟨false, js "home"⟩]) = .done r ∧
      activeCount r ≤ 1 ∧
      (∀ l ∈ r, js "active" ∈ l.classList → l.href = js "#" ++ js "about") ∧
      ((∃ l ∈ [(⟨js "#home", [js "nav-link", js "active"]⟩ : NavLink),
          ⟨js "#about", [js "nav-link"]⟩], l.href = js "#" ++ js "about") →
        activeCount r = 1)) ∧
    (∃ r, observerCallback
        [⟨js "#home", [js "nav-link", js "active"]⟩, ⟨js "#about", [js "nav-link"]⟩]
        [⟨true, js "about"⟩, ⟨true, js "home"⟩] = .done r ∧ activeCount r ≤ 1) ∧
    activeCount [(⟨js "#home", [js "nav-link"]⟩ : NavLink), ⟨js "#about", [js "nav-link"]⟩]
      ≤ 1 :=
  ⟨(active_navigation_single _).1 ⟨true, js "about"⟩ rfl ⟨"about".toList, rfl, by decide⟩,
   (active_navigation_single _).2.1 ⟨false, js "about"⟩ rfl,
   (active_navigation_single _).2.2.1 [⟨false, js "about"⟩] [⟨false, js "home"⟩]
      ⟨true, js "about"⟩
      (by
        intro x hx hi
        simp only [List.mem_singleton] at hx
        subst hx
        cases hi)
      rfl ⟨"about".toList, rfl, by decide⟩ (by decide),
   (active_navigation_single _).2.2.2.1 (by decide) [⟨true, js "about"⟩, ⟨true, js "home"⟩]
      (by
        intro x hx _
        simp only [List.mem_cons, List.mem_singleton, List.not_mem_nil, or_false] at hx
        rcases hx with rfl | rfl
        · exact ⟨"about".toList, rfl, by decide⟩
        · exact ⟨"home".toList, rfl, by decide⟩),
   (active_navigation_single
      [⟨js "#home", [js "nav-link", js "active"]⟩, ⟨js "#about", [js "nav-link"]⟩]).2.2.2.2.1
      ⟨true, js "a\nb"⟩ _ rfl (Or.inr (by decide))⟩

/-- C9 as stated fails: the section id is put into the selector unescaped, and in
a CSS string `\62` is the letter b. For the section with the id `a\62`, with
links to `#home` (active), `#a\62` and `#ab`, the callback takes the flag from
the link to `#home` and gives it to the link to `#ab`, whose href is not `#`
followed by the id. -/
theorem active_navigation_escaped_id :
    observerCallback
      [⟨js "#home", [js "nav-link", js "active"]⟩, ⟨js "#a\\62", [js "nav-link"]⟩,
        ⟨js "#ab", [js "nav-link"]⟩]
      [⟨true, js "a\\62"⟩]
      = .done [⟨js "#home", [js "nav-link"]⟩, ⟨js "#a\\62", [js "nav-link"]⟩,
          ⟨js "#ab", [js "nav-link", js "active"]⟩] ∧
    js "#ab" ≠ js "#" ++ js "a\\62" := by
  decide

end Portfolio

namespace TypingEffect

/-! ## Typing effect on the phrases "A", "BB" -/

theorem ticks_add (a b : Nat) (t : TypingEffect) :
    ticks (a + b) t = (ticks a t).bind (ticks b) := by
  induction a generalizing t with
  | zero => simp [ticks]
  | succ k ih =>
    rw [Nat.add_right_comm]
    show (match type t with | none => none | some u => ticks (k + b) u)
      = (match type t with | none => none | some u => ticks k u).bind (ticks b)
    cases type t with
    | none => rfl
    | some u => exact ih u

theorem create_A_BB : createDefault (js "") [js "A", js "BB"] = some firstA_BB := by
  decide

theorem ticks_six_A_BB : ticks 6 firstA_BB = some firstA_BB := by
  decide

theorem ticks_mod_six_A_BB (n : Nat) : ticks n firstA_BB = ticks (n % 6) firstA_BB := by
  induction n using Nat.strong_induction_on with
  | _ n ih =>
    by_cases h : n < 6
    · rw [Nat.mod_eq_of_lt h]
    · have h6 : n = 6 + (n - 6) := by omega
      have hm : n % 6 = (n - 6) % 6 := by omega
      rw [hm, ← ih (n - 6) (by omega)]
      conv_lhs => rw [h6, ticks_add, ticks_six_A_BB]
      rfl

/-- C7, as the code has it: for the phrases "A", "BB" and the default speeds the
texts rendered by the successive calls of `type()`, the constructor's call
first, are "A", "", "B", "BB", "B", "" and so on with period 6: every call
renders a text, and the `n`-th text is the one at place `n mod 6` of that list. -/
theorem rendered_A_BB_period_six (n : Nat) :
    rendered [js "A", js "BB"] n
      = [js "A", js "", js "B", js "BB", js "B", js ""][n % 6]? ∧
    (rendered [js "A", js "BB"] n).isSome = true := by
  have key : rendered [js "A", js "BB"] n
      = [js "A", js "", js "B", js "BB", js "B", js ""][n % 6]? := by
    unfold rendered
    rw [create_A_BB]
    dsimp only
    rw [ticks_mod_six_A_BB]
    have h : n % 6 < 6 := Nat.mod_lt _ (by decide)
    generalize n % 6 = m at h
    interval_cases m <;> decide
  refine ⟨key, ?_⟩
  rw [key]
  have h : n % 6 < 6 := Nat.mod_lt _ (by decide)
  generalize n % 6 = m at h
  interval_cases m <;> rfl

/-- C7 as stated fails: the fifth text rendered for the phrases "A", "BB" is "B",
not the empty text, so the texts do not run through "A", "", "B", "BB", "" with
period 5. -/
theorem rendered_A_BB_not_period_five :
    rendered [js "A", js "BB"] 4 = some (js "B") ∧
    ¬ (∀ n, rendered [js "A", js "BB"] n
        = [js "A", js "", js "B", js "BB", js ""][n % 5]?) := by
  refine ⟨by decide, fun h => ?_⟩
  have h4 := h 4
  revert h4
  decide

end TypingEffect

namespace Portfolio

namespace Debounced

variable {α : Type}

/-! ## Debounce -/

theorem advance_nil (untilT : Nat) (s : Debounced α) (h : s.pending = []) :
    advance untilT s = { s with now := max s.now untilT } := by
  unfold advance
  rw [show s.pending.length = 0 by rw [h]; rfl]
  rfl

theorem advance_armed_lt (s : Debounced α) (a : α) (hs : Armed s a) (untilT : Nat)
    (h : untilT < s.now + s.wait) :
    advance untilT s = { s with now := max s.now untilT } := by
  obtain ⟨i, hp, -, -⟩ := hs
  unfold advance
  rw [hp]
  simp only [List.length_singleton, advanceAux, hp, earliest]
  rw [if_neg (by omega)]

theorem advance_armed_ge (s : Debounced α) (a : α) (hs : Armed s a) (untilT : Nat)
    (h : s.now + s.wait ≤ untilT) :
    (advance untilT s).calls = [(s.now + s.wait, a)] ∧ (advance untilT s).pending = [] ∧
      (advance untilT s).now = untilT := by
  obtain ⟨i, hp, ht, hc⟩ := hs
  unfold advance
  rw [hp]
  simp only [List.length_singleton, advanceAux, hp, earliest]
  rw [if_pos h]
  simp [fire, later, clearTimeout, ht, hc, hp]
  omega

theorem executedFunction_armed (s : Debounced α) (a : α)
    (h : ∀ t ∈ s.pending, s.timeout = some t.id) (hc : s.calls = []) :
    Armed (executedFunction a s) a ∧ (executedFunction a s).now = s.now ∧
      (executedFunction a s).wait = s.wait := by
  have hclear : (clearTimeout s.timeout s).pending = [] := by
    cases ht : s.timeout with
    | none =>
      cases hp : s.pending with
      | nil => simp [clearTimeout, hp]
      | cons t ts =>
        have := h t (by rw [hp]; exact List.mem_cons_self _ _)
        rw [ht] at this
        cases this
    | some i =>
      simp only [clearTimeout]
      rw [List.filter_eq_nil_iff]
      intro t ht'
      have := h t ht'
      rw [ht] at this
      cases this
      simp
  have hnow : (clearTimeout s.timeout s).now = s.now := by
    cases s.timeout <;> rfl
  have hwait : (clearTimeout s.timeout s).wait = s.wait := by
    cases s.timeout <;> rfl
  have hcalls : (clearTimeout s.timeout s).calls = s.calls := by
    cases s.timeout <;> rfl
  refine ⟨⟨(clearTimeout s.timeout s).nextId, ?_, rfl, ?_⟩, ?_, ?_⟩
  · simp [executedFunction, hclear, hnow, hwait]
  · simp [executedFunction, hcalls, hc]
  · simp [executedFunction, hnow]
  · simp [executedFunction, hwait]

theorem callAfter_init (wait start gap : Nat) (a : α) :
    Armed (callAfter gap a (init wait start)) a ∧
      (callAfter gap a (init wait start)).now = start + gap ∧
      (callAfter gap a (init wait start)).wait = wait := by
  unfold callAfter
  rw [advance_nil _ _ rfl]
  have := executedFunction_armed
    ({ wait := wait, timeout := none, nextId := 1, now := max start (start + gap),
       pending := [], calls := [] } : Debounced α) a (by intro t ht; cases ht) rfl
  refine ⟨this.1, ?_, ?_⟩
  · exact this.2.1.trans (by simp)
  · exact this.2.2

theorem callAfter_armed (s : Debounced α) (b : α) (hs : Armed s b) (gap : Nat) (a : α)
    (h : gap < s.wait) :
    Armed (callAfter gap a s) a ∧ (callAfter gap a s).now = s.now + gap ∧
      (callAfter gap a s).wait = s.wait := by
  unfold callAfter
  rw [advance_armed_lt s b hs _ (by omega)]
  obtain ⟨i, hp, ht, hc⟩ := hs
  have := executedFunction_armed ({ s with now := max s.now (s.now + gap) } : Debounced α) a
    (by
      intro t htm
      simp only [hp, List.mem_singleton] at htm
      subst htm
      exact ht) hc
  refine ⟨this.1, ?_, ?_⟩
  · rw [this.2.1]; simp
  · rw [this.2.2]

theorem burst_armed (s : Debounced α) (b : α) (hs : Armed s b) (rest : List (Nat × α))
    (h : ∀ c ∈ rest, c.1 < s.wait) :
    (∀ u ∈ burst s rest, (∃ a, Armed u a) ∧ u.wait = s.wait) ∧
      Armed (afterBurst s rest) (lastArgs b rest) ∧
      (afterBurst s rest).now = s.now + (rest.map Prod.fst).sum ∧
      (afterBurst s rest).wait = s.wait := by
  induction rest generalizing s b with
  | nil => exact ⟨(by intro u hu; cases hu), hs, (by simp [afterBurst]), rfl⟩
  | cons c rest ih =>
    obtain ⟨gap, a⟩ := c
    have hgap : gap < s.wait := h (gap, a) (List.mem_cons_self _ _)
    obtain ⟨h1, h2, h3⟩ := callAfter_armed s b hs gap a hgap
    have ih1 := ih (callAfter gap a s) a h1
      (by intro c hc; rw [h3]; exact h c (List.mem_cons_of_mem _ hc))
    refine ⟨?_, ih1.2.1, ?_, ?_⟩
    · intro u hu
      rcases List.mem_cons.1 hu with rfl | hu
      · exact ⟨⟨a, h1⟩, h3⟩
      · have := ih1.1 u hu
        exact ⟨this.1, by rw [this.2, h3]⟩
    · show (afterBurst (callAfter gap a s) rest).now = _
      rw [ih1.2.2.1, h2]
      simp [Nat.add_assoc]
    · show (afterBurst (callAfter gap a s) rest).wait = _
      rw [ih1.2.2.2, h3]

theorem lastArgs_eq_getLast (c : Nat × α) (rest : List (Nat × α)) :
    lastArgs c.2 rest = ((c :: rest).getLast (List.cons_ne_nil _ _)).2 := by
  induction rest generalizing c with
  | nil => rfl
  | cons d rest ih =>
    rw [List.getLast_cons (List.cons_ne_nil _ _)]
    exact ih d

/-- C10: `debounce(func, wait)` is trailing-edge. For a run of calls of the
debounced function in which every call after the first comes less than `wait`
milliseconds after the one before, `func` has not run after any call of the run
nor at any time before `wait` milliseconds have passed since that call; once
`wait` milliseconds have passed since the last call, `func` has run exactly
once, at `wait` milliseconds after the last call and with the arguments of the
last call; and at each of these moments at most one timer is pending. -/
theorem debounce_trailing_edge (wait start : Nat) (first : Nat × α)
    (rest : List (Nat × α)) (h : ∀ c ∈ rest, c.1 < wait) :
    (∀ u ∈ burst (init wait start) (first :: rest),
      u.calls = [] ∧ u.pending.length ≤ 1 ∧
      ∀ untilT, untilT < u.now + wait →
        (advance untilT u).calls = [] ∧ (advance untilT u).pending.length ≤ 1) ∧
    (afterBurst (init wait start) (first :: rest)).now
      = start + ((first :: rest).map Prod.fst).sum ∧
    (∀ untilT, (afterBurst (init wait start) (first :: rest)).now + wait ≤ untilT →
      (advance untilT (afterBurst (init wait start) (first :: rest))).calls
        = [((afterBurst (init wait start) (first :: rest)).now + wait,
            ((first :: rest).getLast (List.cons_ne_nil _ _)).2)] ∧
      (advance untilT (afterBurst (init wait start) (first :: rest))).pending = []) := by
  obtain ⟨gap, a⟩ := first
  obtain ⟨h1, h2, h3⟩ := callAfter_init wait start gap a
  have hb := burst_armed (callAfter gap a (init wait start)) a h1 rest
    (by intro c hc; rw [h3]; exact h c hc)
  have harmed : ∀ u : Debounced α, (∃ x, Armed u x) → u.wait = wait →
      u.calls = [] ∧ u.pending.length ≤ 1 ∧
      ∀ untilT, untilT < u.now + wait →
        (advance untilT u).calls = [] ∧ (advance untilT u).pending.length ≤ 1 := by
    rintro u ⟨x, hx⟩ hw
    obtain ⟨i, hp, ht, hc⟩ := hx
    refine ⟨hc, by rw [hp]; simp, ?_⟩
    intro untilT hT
    rw [advance_armed_lt u x ⟨i, hp, ht, hc⟩ untilT (by rw [hw]; exact hT)]
    exact ⟨hc, by show u.pending.length ≤ 1; rw [hp]; simp⟩
  refine ⟨?_, ?_, ?_⟩
  · intro u hu
    rcases List.mem_cons.1 hu with rfl | hu
    · exact harmed _ ⟨a, h1⟩ h3
    · have := hb.1 u hu
      exact harmed u this.1 (by rw [this.2, h3])
  · show (afterBurst (callAfter gap a (init wait start)) rest).now = _
    rw [hb.2.2.1, h2]
    simp [Nat.add_assoc]
  · intro untilT hT
    have hw : (afterBurst (callAfter gap a (init wait start)) rest).wait = wait := by
      rw [hb.2.2.2, h3]
    have := advance_armed_ge (afterBurst (callAfter gap a (init wait start)) rest) _ hb.2.1
      untilT (by rw [hw]; exact hT)
    rw [hw, lastArgs_eq_getLast (gap, a) rest] at this
    exact ⟨this.1, this.2.1⟩

/-- Witness for C10: with `wait` 10, three scroll events at times 3, 7 and 16
lead to one update, at time 26, with the arguments of the third event. -/
theorem debounce_trailing_edge_witness :
    (∀ u ∈ burst (init 10 0) [(3, "a"), (4, "b"), (9, "c")],
      u.calls = [] ∧ u.pending.length ≤ 1 ∧
      ∀ untilT, untilT < u.now + 10 →
        (advance untilT u).calls = [] ∧ (advance untilT u).pending.length ≤ 1) ∧
    (afterBurst (init 10 0) [(3, "a"), (4, "b"), (9, "c")]).now = 16 ∧
    (advance 30 (afterBurst (init 10 0) [(3, "a"), (4, "b"), (9, "c")])).calls
      = [(26, "c")] :=
  ⟨(debounce_trailing_edge 10 0 (3, "a") [(4, "b"), (9, "c")] (by decide)).1,
   (debounce_trailing_edge 10 0 (3, "a") [(4, "b"), (9, "c")] (by decide)).2.1,
   ((debounce_trailing_edge 10 0 (3, "a") [(4, "b"), (9, "c")] (by decide)).2.2 30
      (by decide)).1⟩

end Debounced

end Portfolio

namespace Portfolio

namespace Debounced

variable {α : Type}

/-! ## Debounce: the clock fires every due timer -/

theorem earliest_eq_none (l : List (Timer α)) (h : earliest l = none) : l = [] := by
  cases l with
  | nil => rfl
  | cons t ts =>
    unfold earliest at h
    split at h
    · cases h
    · split at h <;> cases h

theorem earliest_spec (l : List (Timer α)) (t : Timer α) (h : earliest l = some t) :
    t ∈ l ∧ ∀ u ∈ l, t.due ≤ u.due := by
  induction l generalizing t with
  | nil => cases h
  | cons x xs ih =>
    unfold earliest at h
    split at h
    · rename_i hnone
      have hxs := earliest_eq_none xs hnone
      subst hxs
      simp only [Option.some.injEq] at h
      subst h
      exact ⟨List.mem_cons_self _ _, by intro u hu; simp at hu; rw [hu]⟩
    · rename_i u hu
      have := ih u hu
      split at h
      · rename_i hlt
        simp only [Option.some.injEq] at h
        subst h
        refine ⟨List.mem_cons_of_mem _ this.1, ?_⟩
        intro v hv
        rcases List.mem_cons.1 hv with rfl | hv
        · omega
        · exact this.2 v hv
      · rename_i hge
        simp only [Option.some.injEq] at h
        subst h
        refine ⟨List.mem_cons_self _ _, ?_⟩
        intro v hv
        rcases List.mem_cons.1 hv with rfl | hv
        · exact Nat.le_refl _
        · have := this.2 v hv
          omega

theorem fire_pending (t : Timer α) (s : Debounced α) (ht : t ∈ s.pending) :
    (fire t s).pending.length < s.pending.length ∧
    ∀ u ∈ (fire t s).pending, u ∈ s.pending := by
  have hsub : ∀ u ∈ (fire t s).pending,
      u ∈ s.pending.filter (fun u => decide (u.id ≠ t.id)) := by
    intro u hu
    unfold fire later at hu
    cases hto : s.timeout with
    | none => simpa [clearTimeout, hto] using hu
    | some i =>
      simp only [clearTimeout, hto, List.mem_filter] at hu
      simpa using hu.1
  have hlen : (fire t s).pending.length
      ≤ (s.pending.filter (fun u => decide (u.id ≠ t.id))).length := by
    unfold fire later
    cases hto : s.timeout with
    | none => simp [clearTimeout]
    | some i =>
      simp only [clearTimeout]
      exact List.length_filter_le _ _
  have hlt : (s.pending.filter (fun u => decide (u.id ≠ t.id))).length < s.pending.length := by
    apply List.length_filter_lt_length_iff_exists.2
    exact ⟨t, ht, by simp⟩
  exact ⟨by omega, fun u hu => (List.mem_filter.1 (hsub u hu)).1⟩

theorem advanceAux_fires_all_due (fuel untilT : Nat) (s : Debounced α)
    (hfuel : s.pending.length ≤ fuel) :
    ∀ u ∈ (advanceAux fuel untilT s).pending, untilT < u.due := by
  induction fuel generalizing s with
  | zero =>
    intro u hu
    have : s.pending = [] := List.length_eq_zero.1 (by omega)
    simp [advanceAux, this] at hu
  | succ n ih =>
    intro u hu
    unfold advanceAux at hu
    split at hu
    · rename_i hnone
      have := earliest_eq_none _ hnone
      simp [this] at hu
    · rename_i t ht
      have hspec := earliest_spec _ t ht
      split at hu
      · have hf := fire_pending t s hspec.1
        exact ih (fire t s) (by omega) u hu
      · rename_i hnot
        have := hspec.2 u hu
        omega

/-- The clock leaves no timer behind: after it has run to a time, every timer
still pending is due later. -/
theorem advance_fires_all_due (untilT : Nat) (s : Debounced α) :
    ∀ u ∈ (advance untilT s).pending, untilT < u.due :=
  advanceAux_fires_all_due _ untilT s (Nat.le_refl _)

end Debounced

end Portfolio

namespace TypingEffect

/-! ## Typing effect: the bounds on the offset -/

theorem type_ready (t : TypingEffect) (h : Ready t) :
    ∃ u, type t = some u ∧ u.texts = t.texts ∧ Ready u ∧ Bounded u := by
  obtain ⟨hp, cur, hcur, hc⟩ := h
  have hlt : t.textIndex < t.texts.length := by
    by_contra hge
    rw [List.getElem?_eq_none (by omega)] at hcur
    cases hcur
  unfold type
  rw [hcur]
  dsimp only
  cases hd : t.isDeleting with
  | false =>
    rw [hd] at hc
    simp only [Bool.false_eq_true, if_false] at hc
    simp only [Bool.false_eq_true, if_false, Bool.not_false, Bool.true_and, Bool.false_and,
      decide_eq_true_eq]
    by_cases hfull : t.charIndex + 1 = (cur.length : Int)
    · rw [if_pos hfull]
      refine ⟨_, rfl, rfl, ⟨hp, cur, hcur, ?_⟩, hlt, cur, hcur, ?_, ?_, rfl⟩
      · show (if true = true then _ else _)
        simp only [if_true]
        constructor
        · show 1 ≤ t.charIndex + 1
          omega
        · show t.charIndex + 1 ≤ _
          omega
      · show 0 ≤ t.charIndex + 1
        omega
      · show t.charIndex + 1 ≤ (cur.length : Int)
        omega
    · rw [if_neg hfull]
      refine ⟨_, rfl, rfl, ⟨hp, cur, hcur, ?_⟩, hlt, cur, hcur, ?_, ?_, rfl⟩
      · show (if false = true then _ else _)
        simp only [Bool.false_eq_true, if_false]
        constructor
        · show 0 ≤ t.charIndex + 1
          omega
        · show t.charIndex + 1 < _
          omega
      · show 0 ≤ t.charIndex + 1
        omega
      · show t.charIndex + 1 ≤ (cur.length : Int)
        omega
  | true =>
    rw [hd] at hc
    simp only [if_true] at hc
    simp only [if_true, Bool.not_true, Bool.false_and, Bool.false_eq_true, if_false,
      Bool.true_and, decide_eq_true_eq]
    by_cases hzero : t.charIndex - 1 = 0
    · rw [if_pos hzero]
      have hpos : 0 < t.texts.length := by omega
      have hnext : (t.textIndex + 1) % t.texts.length < t.texts.length := Nat.mod_lt _ hpos
      have hget : t.texts[(t.textIndex + 1) % t.texts.length]?
          = some (t.texts[(t.textIndex + 1) % t.texts.length]) :=
        List.getElem?_eq_getElem hnext
      have hne : t.texts[(t.textIndex + 1) % t.texts.length] ≠ [] :=
        hp _ (List.getElem_mem _)
      have hlen : 0 < (t.texts[(t.textIndex + 1) % t.texts.length]).length :=
        List.length_pos.2 hne
      refine ⟨_, rfl, rfl, ⟨hp, _, hget, ?_⟩, hnext, _, hget, ?_, ?_, ?_⟩
      · show (if false = true then _ else _)
        simp only [Bool.false_eq_true, if_false]
        constructor
        · show 0 ≤ t.charIndex - 1
          omega
        · show t.charIndex - 1 < _
          omega
      · show 0 ≤ t.charIndex - 1
        omega
      · show t.charIndex - 1 ≤ _
        omega
      · show substring0 cur (t.charIndex - 1) = List.take (t.charIndex - 1).toNat _
        unfold substring0
        rw [hzero]
        simp
    · rw [if_neg hzero]
      refine ⟨_, rfl, rfl, ⟨hp, cur, hcur, ?_⟩, hlt, cur, hcur, ?_, ?_, rfl⟩
      · show (if true = true then _ else _)
        simp only [if_true]
        constructor
        · show 1 ≤ t.charIndex - 1
          omega
        · show t.charIndex - 1 ≤ _
          omega
      · show 0 ≤ t.charIndex - 1
        omega
      · show t.charIndex - 1 ≤ _
        omega

theorem ticks_ready (n : Nat) (t : TypingEffect) (h : Ready t) (hb : Bounded t) :
    ∃ u, ticks n t = some u ∧ u.texts = t.texts ∧ Ready u ∧ Bounded u := by
  induction n generalizing t with
  | zero => exact ⟨t, rfl, rfl, h, hb⟩
  | succ k ih =>
    obtain ⟨v, hv, hvt, hvr, hvb⟩ := type_ready t h
    obtain ⟨u, hu, hut, hur, hub⟩ := ih v hvr hvb
    refine ⟨u, ?_, by rw [hut, hvt], hur, hub⟩
    show (match type t with | none => none | some u => ticks k u) = some u
    rw [hv]
    exact hu

/-- The bounds hold for phrases that are not empty: for a phrase list that is not
empty and has no empty phrase, the constructor and every number of further
calls of `type()` give a state, its phrase index is below the number of phrases,
its offset lies between 0 and the length of the current phrase, and the text on
screen is the part of the current phrase before the offset. -/
theorem bounded_of_nonempty_phrases (textContent : JSString) (texts : List JSString)
    (typeSpeed deleteSpeed delayBetweenTexts : Nat) (hne : texts ≠ [])
    (hp : ∀ p ∈ texts, p ≠ []) (n : Nat) :
    ∃ u, (create textContent texts typeSpeed deleteSpeed delayBetweenTexts).bind (ticks n)
        = some u ∧ u.texts = texts ∧ Bounded u := by
  have hlen : 0 < texts.length := List.length_pos.2 hne
  have hget : texts[0]? = some (texts[0]) := List.getElem?_eq_getElem hlen
  have hfirst : 0 < (texts[0]).length := List.length_pos.2 (hp _ (List.getElem_mem _))
  have hready : Ready (⟨textContent, texts, typeSpeed, deleteSpeed, delayBetweenTexts,
      0, 0, false, none⟩ : TypingEffect) := by
    refine ⟨hp, texts[0], hget, ?_⟩
    simp only [Bool.false_eq_true, if_false]
    constructor
    · exact Int.le_refl 0
    · show (0 : Int) < _
      omega
  obtain ⟨v, hv, hvt, hvr, hvb⟩ := type_ready _ hready
  obtain ⟨u, hu, hut, -, hub⟩ := ticks_ready n v hvr hvb
  refine ⟨u, ?_, by rw [hut, hvt], hub⟩
  unfold create
  rw [if_neg (by omega), hv]
  exact hu

/-- Witness: the phrases "Hi", "Dev" after the constructor and four more calls. -/
theorem bounded_of_nonempty_phrases_witness :
    ∃ u, (create (js "") [js "Hi", js "Dev"] 100 50 2000).bind (ticks 4) = some u ∧
      u.texts = [js "Hi", js "Dev"] ∧ Bounded u :=
  bounded_of_nonempty_phrases (js "") [js "Hi", js "Dev"] 100 50 2000 (by decide)
    (by decide) 4

theorem type_on_empty_phrase (t : TypingEffect) (rest : List JSString)
    (ht : t.texts = [] :: rest) (hi : t.textIndex = 0) (hd : t.isDeleting = false)
    (hc : 0 ≤ t.charIndex) :
    ∃ u, type t = some u ∧ u.texts = t.texts ∧ u.textIndex = 0 ∧ u.isDeleting = false ∧
      u.charIndex = t.charIndex + 1 ∧ u.textContent = [] := by
  unfold type
  rw [ht, hi]
  simp only [List.getElem?_cons_zero]
  rw [hd]
  simp only [Bool.false_eq_true, if_false, Bool.not_false, Bool.true_and, Bool.false_and,
    decide_eq_true_eq, List.length_nil]
  rw [if_neg (by show ¬ (t.charIndex + 1 = ((0 : Nat) : Int)); omega)]
  exact ⟨_, rfl, rfl, rfl, rfl, rfl, by simp [substring0]⟩

theorem ticks_on_empty_phrase (n : Nat) (t : TypingEffect) (rest : List JSString)
    (ht : t.texts = [] :: rest) (hi : t.textIndex = 0) (hd : t.isDeleting = false)
    (hc : 0 ≤ t.charIndex) (hx : t.textContent = []) :
    ∃ u, ticks n t = some u ∧ u.textIndex = 0 ∧ u.isDeleting = false ∧
      u.charIndex = t.charIndex + n ∧ u.textContent = [] := by
  induction n generalizing t with
  | zero => exact ⟨t, rfl, hi, hd, by simp, hx⟩
  | succ k ih =>
    obtain ⟨v, hv, hvt, hvi, hvd, hvc, hvx⟩ := type_on_empty_phrase t rest ht hi hd hc
    obtain ⟨u, hu, hui, hud, huc, hux⟩ := ih v (by rw [hvt, ht]) hvi hvd (by omega) hvx
    refine ⟨u, ?_, hui, hud, ?_, hux⟩
    · show (match type t with | none => none | some u => ticks k u) = some u
      rw [hv]
      exact hu
    · rw [huc, hvc]
      push_cast
      omega

/-- C11 fails on the code for a phrase list that starts with the empty phrase. For
the one-phrase list with the phrase "", the constructor leaves the offset 1 on a
phrase of length 0, and the next calls of `type()` leave the offsets 2 and 3.
For every phrase list that starts with "", after the constructor and `n` more
calls the phrase index is still 0, the loop is still typing, the text on screen
is empty and the offset is `n + 1`: it grows without bound and no later phrase
is ever shown. -/
theorem type_empty_phrase_offset_unbounded :
    (createDefault (js "") [js ""]).map
        (fun t => (t.texts[t.textIndex]?, t.charIndex, t.isDeleting))
      = some (some (js ""), 1, false) ∧
    ((createDefault (js "") [js ""]).bind (ticks 1)).map
        (fun t => (t.texts[t.textIndex]?, t.charIndex, t.isDeleting))
      = some (some (js ""), 2, false) ∧
    ((createDefault (js "") [js ""]).bind (ticks 2)).map
        (fun t => (t.texts[t.textIndex]?, t.charIndex, t.isDeleting))
      = some (some (js ""), 3, false) ∧
    (∀ (rest : List JSString) (n : Nat),
      ((createDefault (js "") (js "" :: rest)).bind (ticks n)).map
          (fun t => (t.textIndex, t.charIndex, t.isDeleting, t.textContent))
        = some (0, (n : Int) + 1, false, js "")) := by
  refine ⟨by decide, by decide, by decide, ?_⟩
  intro rest n
  obtain ⟨v, hv, hvt, hvi, hvd, hvc, hvx⟩ := type_on_empty_phrase
    (⟨js "", js "" :: rest, 100, 50, 2000, 0, 0, false, none⟩ : TypingEffect)
    rest rfl rfl rfl (Int.le_refl 0)
  have hvc1 : v.charIndex = 1 := hvc
  obtain ⟨u, hu, hui, hud, huc, hux⟩ := ticks_on_empty_phrase n v rest
    hvt hvi hvd (by rw [hvc1]; decide) hvx
  have hcreate : createDefault (js "") (js "" :: rest) = some v := by
    unfold createDefault create
    rw [if_neg (by simp)]
    exact hv
  rw [hcreate]
  show (ticks n v).map _ = _
  rw [hu]
  show some (u.textIndex, u.charIndex, u.isDeleting, u.textContent) = _
  have hcount : u.charIndex = (n : Int) + 1 := by
    rw [huc, hvc1]
    omega
  rw [hui, hud, hcount, hux]
  rfl

end TypingEffect
